import Mathlib

/-!
Verification development for perma_web/perma/celery_tasks.py.

Each definition below is a shallow embedding of a function (or a code
fragment) of the source file, translated clause by clause.  Theorems at
the end of the file settle the specification claims against these
definitions.

String primitives are implemented structurally over `List Char` so that
they match the semantics of the Python operations used by the source
(`in`, `str.split`, `str.lower`, slicing) while remaining evaluable by
the kernel.
-/

namespace Perma

/-! ## String primitives -/

/-- Whether `p` is an initial segment of the second list.  Used to build
the substring test below. -/
def listStartsWith : List Char → List Char → Bool
  | [], _ => true
  | _ :: _, [] => false
  | p :: ps, c :: cs => p == c && listStartsWith ps cs

/-- Whether `pat` occurs contiguously inside the list. -/
def containsList (pat : List Char) : List Char → Bool
  | [] => listStartsWith pat []
  | c :: cs => listStartsWith pat (c :: cs) || containsList pat cs

/-- Mirrors the Python expression `pat in s` on strings (substring
containment). -/
def strContains (s pat : String) : Bool :=
  containsList pat.data s.data

/-- Mirrors Python `s.split(sep)` for a one-character separator: the
result always has at least one piece, and splitting the empty string
yields `[""]`, exactly as in Python. -/
def splitChar (sep : Char) : List Char → List (List Char)
  | [] => [[]]
  | c :: rest =>
    let r := splitChar sep rest
    if c == sep then [] :: r
    else
      match r with
      | h :: t => (c :: h) :: t
      | [] => [[c]]

/-- String version of `splitChar`. -/
def splitStr (sep : Char) (s : String) : List String :=
  (splitChar sep s.data).map String.mk

/-- Mirrors Python `s.lower()` (the source only lowercases ASCII header
and meta-tag text). -/
def lowerStr (s : String) : String :=
  String.mk (s.data.map Char.toLower)

/-- Mirrors the Python slice `s[:n]`. -/
def takeStr (n : Nat) (s : String) : String :=
  String.mk (s.data.take n)

/-- Mirrors Python `sep.join(parts)`. -/
def joinWith (sep : String) : List String → String
  | [] => ""
  | [s] => s
  | s :: rest => s ++ sep ++ joinWith sep rest

/-- Mirrors Python `s.endswith(pat)`. -/
def endsWithStr (s pat : String) : Bool :=
  listStartsWith pat.data.reverse s.data.reverse

/-! ## C1: the interruptible read loop of `stoppable_proxy_request`
(celery_tasks.py lines 1047-1080).

The inner `while buf != b''` loop reads chunks from the upstream socket.
After every read it checks, in source order:
1. `self._max_resource_size and prox_rec_res.recorder.len > self._max_resource_size`
   (truncate with `b'length'`, shut down and close the upstream socket);
2. `elif 'content-length' not in self.headers and time.time() - start > 3*60*60`
   (truncate with `b'time'`);
3. the Perma addition `if stop:` (truncate with `b'length'`).
A read returning the empty chunk ends the loop normally, but only after
the three checks have run once more.  We model one loop execution over a
list of read steps; each step carries the chunk size, the wall-clock
seconds elapsed since `start` when the checks run, and the value of the
orchestrator stop flag observed by the check. -/

/-- Truncation marker written on the recorder (`b'length'` or `b'time'`). -/
inductive Trunc
  | length
  | time
deriving DecidableEq, Repr

/-- One iteration of the read loop: bytes returned by `read(65536)`, the
elapsed seconds at the truncation checks, and the stop flag value. -/
structure ReadStep where
  chunk : Nat
  elapsed : Nat
  stop : Bool
deriving DecidableEq, Repr

/-- Condition of the first truncation check: mirrors the Python guard
`self._max_resource_size and recorder.len > self._max_resource_size`
(a falsy `_max_resource_size` disables the check). -/
def sizeExceeded : Option Nat → Nat → Bool
  | some m, len => decide (m < len)
  | none, _ => false

/-- Condition of the second truncation check: mirrors the Python guard
`'content-length' not in self.headers and time.time() - start > 3*60*60`. -/
def timeExceeded (hasContentLength : Bool) (elapsed : Nat) : Bool :=
  !hasContentLength && decide (3 * 60 * 60 < elapsed)

/-- The three truncation checks of a single loop iteration, in source
order (`if` / `elif` / the separate `if stop`). -/
def checkTrunc (maxSize : Option Nat) (hasContentLength : Bool) (len : Nat)
    (s : ReadStep) : Option Trunc :=
  if sizeExceeded maxSize len then some Trunc.length
  else if timeExceeded hasContentLength s.elapsed then some Trunc.time
  else if s.stop then some Trunc.length
  else none

/-- The whole read loop.  `len` is `recorder.len` carried across
iterations (its initial value covers bytes counted before the loop).
Returns the final recorded length and the truncation marker, if any.
A step with `chunk = 0` is the empty read that ends the loop normally
(after the checks have run for it, exactly as in the source). -/
def stoppable_read_loop (maxSize : Option Nat) (hasContentLength : Bool) :
    Nat → List ReadStep → Nat × Option Trunc
  | len, [] => (len, none)
  | len, s :: rest =>
    let len' := len + s.chunk
    match checkTrunc maxSize hasContentLength len' s with
    | some t => (len', some t)
    | none =>
      if s.chunk = 0 then (len', none)
      else stoppable_read_loop maxSize hasContentLength len' rest

/-- Total number of bytes delivered by a list of read steps. -/
def totalChunks (steps : List ReadStep) : Nat :=
  (steps.map (fun s => s.chunk)).sum

/-! ## C6: the await-first-useful-response loop of `run_next_capture`
(celery_tasks.py lines 1244-1279). -/

/-- The data the loop inspects on a completed proxied response. -/
structure PResp where
  url : String
  status : Nat
deriving DecidableEq, Repr

/-- A `proxied_pair`: the requested URL and, once the proxy commits the
response, the recorded response. -/
structure PPair where
  requestedUrl : String
  response : Option PResp
deriving DecidableEq, Repr

/-- Mirrors the favicon skip
`response.url.endswith(b'/favicon.ico') and response.url != target_url`.
In the source `response.url` is bytes while `target_url` is a str, so the
inequality compares values of different types and always holds; the skip
therefore applies to every URL ending in `/favicon.ico`, the target URL
included. -/
def isFaviconResponse (r : PResp) : Bool :=
  endsWithStr r.url "/favicon.ico"

/-- The statuses skipped by the loop: `[301, 302, 303, 307, 308, 206]`. -/
def redirectOrPartialStatuses : List Nat := [301, 302, 303, 307, 308, 206]

/-- One pass of the inner `for request, response in proxied_pairs` loop:
it stops (returning `none`, i.e. keeps waiting) at the first pair whose
response has not finished, skips favicon and redirect/partial responses,
and otherwise selects the response.  The `proxied_responses["any"]` guard
in the source only fast-paths the all-pending case and does not change
the selection. -/
def scan_proxied_pairs : List PPair → Option PResp
  | [] => none
  | p :: rest =>
    match p.response with
    | none => none
    | some r =>
      if isFaviconResponse r then scan_proxied_pairs rest
      else if redirectOrPartialStatuses.contains r.status then
        scan_proxied_pairs rest
      else some r

/-- The state of `proxied_pairs` at one iteration of the outer
`while not have_content` loop, together with `time.time() - start_time`
at the timeout check. -/
structure Snapshot where
  pairs : List PPair
  waitTime : Nat
deriving DecidableEq, Repr

/-- Result of the outer loop: the content-fixing response, a
`HaltCaptureException` (fatal, the job is marked failed), or still
waiting when the modelled snapshots run out. -/
inductive AwaitOutcome
  | content (r : PResp)
  | halted
  | pending
deriving DecidableEq, Repr

/-- The outer `while not have_content` loop over successive snapshots:
scan the pairs; on success fix the response (the loop exits, so
`content_url` and `content_type` are never reassigned); otherwise raise
`HaltCaptureException` when `wait_time > RESOURCE_LOAD_TIMEOUT`, else
sleep and retry. -/
def await_first_useful (timeoutSecs : Nat) : List Snapshot → AwaitOutcome
  | [] => AwaitOutcome.pending
  | s :: rest =>
    match scan_proxied_pairs s.pairs with
    | some r => AwaitOutcome.content r
    | none =>
      if timeoutSecs < s.waitTime then AwaitOutcome.halted
      else await_first_useful timeoutSecs rest

/-! ## C7: `parse_headers` (lines 506-534) and
`xrobots_blacklists_perma` (lines 554-571), plus the marking at
lines 1293-1296. -/

/-- The per-value cleanup in `parse_headers`:
`directive.replace("\n", "").replace("\r", "")`. -/
def strip_crlf (v : String) : String :=
  String.mk (v.data.filter (fun c => c != '\n' && c != '\r'))

/-- `parse_headers` collects every `x-robots-tag` header value, strips
CR and LF from each, and joins them with a semicolon. -/
def parse_x_robots_tag (values : List String) : String :=
  joinWith ";" (values.map strip_crlf)

/-- The body of the `for directive in robots_directives.split(";")` loop
of `xrobots_blacklists_perma`, for one directive.  `parsed` is
`directive.lower().split(":")`.  Note that in the one-piece branch the
Python test `"noarchive" in parsed` is list membership, so the whole
lowercased directive must equal `"noarchive"` exactly; in the two-piece
branch `"noarchive" in parsed[1]` is a substring test; the fallback
branch tests substrings of the original (not lowercased) directive. -/
def directive_triggers_parsed (genericFlag : Bool) (directive : String)
    (parsed : List String) : Bool :=
  if genericFlag && parsed.length == 1 then
    parsed.contains "noarchive"
  else if parsed.length == 2 then
    parsed.getD 0 "" == "perma" && strContains (parsed.getD 1 "") "noarchive"
  else
    strContains directive "perma" && strContains directive "noarchive"

/-- One directive of the loop, with `parsed = directive.lower().split(":")`. -/
def directive_triggers (genericFlag : Bool) (directive : String) : Bool :=
  directive_triggers_parsed genericFlag directive (splitStr ':' (lowerStr directive))

/-- `xrobots_blacklists_perma`: the empty joined header is falsy and
yields `False`; otherwise `darchive` starts `False` and each directive
may set it. `genericFlag` is `settings.PRIVATE_LINKS_IF_GENERIC_NOARCHIVE`. -/
def xrobots_blacklists_perma (genericFlag : Bool) (robots_directives : String) : Bool :=
  if robots_directives == "" then false
  else
    (splitStr ';' robots_directives).foldl
      (fun darchive directive => darchive || directive_triggers genericFlag directive) false

/-- The Link fields touched by the metadata and policy code. -/
structure LinkRec where
  is_private : Bool
  private_reason : Option String
  submitted_description : Option String
  submitted_title : String
deriving DecidableEq, Repr

/-- The marking in `run_next_capture` (lines 1293-1296): when
`xrobots_blacklists_perma` fires, `safe_save_fields(link,
is_private=True, private_reason='policy')`. -/
def apply_xrobots_check (genericFlag : Bool) (robots_directives : String)
    (link : LinkRec) : LinkRec :=
  if xrobots_blacklists_perma genericFlag robots_directives then
    { link with is_private := true, private_reason := some "policy" }
  else link

/-! ## C8: `process_metadata` (lines 822-837). -/

/-- Mirrors `metadata['meta_tags'].get(key)` on the collected meta-tag
dictionary, here an association list. -/
def metaGet (meta_tags : List (String × String)) (k : String) : Option String :=
  (meta_tags.find? (fun kv => kv.1 == k)).map (fun kv => kv.2)

/-- The tag consulted by the privacy check of `process_metadata`:
`meta_tag = metadata['meta_tags'].get('perma')`, and only when the
generic policy is on and that tag is falsy (absent or empty) does the
source fall back to `metadata['meta_tags'].get('robots')`. -/
def meta_noarchive_tag (genericFlag : Bool)
    (meta_tags : List (String × String)) : Option String :=
  let permaTag := metaGet meta_tags "perma"
  if genericFlag && (permaTag.getD "") == "" then metaGet meta_tags "robots"
  else permaTag

/-- The privacy condition of `process_metadata`:
`if meta_tag and 'noarchive' in meta_tag.lower()`. -/
def meta_triggers_private (genericFlag : Bool)
    (meta_tags : List (String × String)) : Bool :=
  (meta_noarchive_tag genericFlag meta_tags).getD "" != "" &&
    strContains (lowerStr ((meta_noarchive_tag genericFlag meta_tags).getD ""))
      "noarchive"

/-- `process_metadata`: mark the link private with reason policy when the
consulted tag is truthy and contains `noarchive` after lowercasing; save
the description truncated to 300 characters when truthy; always save the
title truncated to 2100 characters. -/
def process_metadata (genericFlag : Bool) (meta_tags : List (String × String))
    (title : String) (link : LinkRec) : LinkRec :=
  let link1 :=
    if meta_triggers_private genericFlag meta_tags then
      { link with is_private := true, private_reason := some "policy" }
    else link
  let link2 :=
    match metaGet meta_tags "description" with
    | some d =>
      if d != "" then { link1 with submitted_description := some (takeStr 300 d) }
      else link1
    | none => link1
  { link2 with submitted_title := takeStr 2100 title }

/-! ## C10: `ProxiedRequestThread.run` (lines 164-197). -/

/-- One chunk delivered by `iter_content(chunk_size=8192)`, together with
the value of `self.stop.is_set() or self.proxied_responses["limit_reached"]`
observed right after the chunk was appended. -/
structure FetchChunk where
  size : Nat
  halt : Bool
deriving DecidableEq, Repr

/-- The observable thread state after `run` returns. -/
structure FetchOutcome where
  urlRequested : Bool
  requestSent : Bool
  response : Option Nat
  responseException : Bool
  pendingData : Nat
deriving DecidableEq, Repr

/-- The chunk loop: accumulate `pending_data` and content; return early
when the halt condition is observed.  Returns the accumulated byte count
and whether the loop returned early. -/
def fetch_chunks (pending : Nat) : List FetchChunk → Nat × Bool
  | [] => (pending, false)
  | c :: rest =>
    let pending' := pending + c.size
    if c.halt then (pending', true) else fetch_chunks pending' rest

/-- `ProxiedRequestThread.run`.  The URL is always added to
`requested_urls` first.  If `limit_reached` is already set the method
returns before the `try` block: no request is sent, `response` and
`response_exception` stay `None`, and `pending_data` keeps its initial
value 0.  Otherwise the request is sent (`sendErr` models a
`requests.RequestException` raised by `send`, `iterErr` one raised while
iterating chunks), and on every path through the `try` the `finally`
clause sets `pending_data = 0`. -/
def proxied_request_thread_run (limitPreset sendErr : Bool)
    (chunks : List FetchChunk) (iterErr : Bool) : FetchOutcome :=
  if limitPreset then
    { urlRequested := true, requestSent := false, response := none,
      responseException := false, pendingData := 0 }
  else if sendErr then
    { urlRequested := true, requestSent := true, response := none,
      responseException := true, pendingData := 0 }
  else
    let r := fetch_chunks 0 chunks
    if r.2 then
      { urlRequested := true, requestSent := true, response := some r.1,
        responseException := false, pendingData := 0 }
    else if iterErr then
      { urlRequested := true, requestSent := true, response := some r.1,
        responseException := true, pendingData := 0 }
    else
      { urlRequested := true, requestSent := true, response := some r.1,
        responseException := false, pendingData := 0 }

/-! ## Internet Archive replication (C2, C3, C4, C5, C9).

`upload_link_to_internet_archive` (lines 1607-1824),
`delete_link_from_daily_item` (lines 1952-2083),
`confirm_file_uploaded_to_internet_archive` (lines 1867-1949) and
`confirm_file_deleted_from_daily_item` (lines 2086-2160) are modelled as
functions of the relevant database state and of one abstract external
event describing how the interaction with the Internet Archive went. -/

/-- The `InternetArchiveFile.status` values used by the tasks. -/
inductive IAFileStatus
  | upload_attempted
  | upload_submitted
  | confirmed_present
  | deletion_attempted
  | deletion_submitted
  | confirmed_absent
deriving DecidableEq, Repr

/-- The action selected by the status dispatch at the top of
`upload_link_to_internet_archive` (lines 1634-1663). -/
inductive UploadDispatch
  | createAndProceed
  | skipAlreadyPresent
  | skipDeletionInProgress
  | proceedWithWarning
  | proceedReupload
deriving DecidableEq, Repr

/-- The status dispatch of the upload task: `none` models the absence of
an `InternetArchiveFile` row for `(item, link)`. -/
def upload_dispatch : Option IAFileStatus → UploadDispatch
  | none => UploadDispatch.createAndProceed
  | some IAFileStatus.confirmed_present => UploadDispatch.skipAlreadyPresent
  | some IAFileStatus.deletion_attempted => UploadDispatch.skipDeletionInProgress
  | some IAFileStatus.deletion_submitted => UploadDispatch.skipDeletionInProgress
  | some IAFileStatus.upload_attempted => UploadDispatch.proceedWithWarning
  | some IAFileStatus.upload_submitted => UploadDispatch.proceedWithWarning
  | some IAFileStatus.confirmed_absent => UploadDispatch.proceedReupload

/-- Whether the dispatch continues into the upload attempt. -/
def UploadDispatch.proceeds : UploadDispatch → Bool
  | UploadDispatch.skipAlreadyPresent => false
  | UploadDispatch.skipDeletionInProgress => false
  | _ => true

/-- Mirrors the retry guard `not settings.LIMIT or settings.LIMIT > counter + 1`
with `next = counter + 1`: a falsy (zero) limit always allows another
retry. -/
def retryAllowed (cap next : Nat) : Bool :=
  cap == 0 || decide (next < cap)

/-- The three retry limits consulted by the upload and deletion tasks. -/
structure RetryCaps where
  rateLimit : Nat
  maxTimeouts : Nat
  errors : Nat
deriving DecidableEq, Repr

/-- The rate-limit phrase searched for in error bodies. -/
def rateLimitPhrase : String := "Please reduce your request rate"

/-- The four concurrent-creation race phrases of the upload task
(lines 1792-1795). -/
def isConcurrentCreationRace (msg : String) : Bool :=
  strContains msg "The bucket namespace is shared" ||
  strContains msg "Failed to get necessary short term bucket lock" ||
  strContains msg "auto_make_bucket requested" ||
  (strContains msg "Checking for identifier availability..." &&
    strContains msg "not_available")

/-- The exceptions the upload attempt (the `try` block around
`ia_item.upload_file` and the status assertion) can raise that one of its
handlers catches, by Python type. -/
inductive UploadExc
  | connErr
  | httpError (msg : String)
  | assertionError (msg : String)
  | softTimeLimit
deriving DecidableEq, Repr

/-- Membership in the `CONNECTION_ERRORS` tuple (line 1565):
`ConnectionError`, `ConnectTimeout`, `requests.exceptions.HTTPError`,
`ReadTimeout`.  Note that `requests.exceptions.HTTPError` — the type the
internetarchive library re-raises for 4xx/5xx responses, rate-limit 503s
and concurrent-creation races included — is a member. -/
def matchesConnectionErrors : UploadExc → Bool
  | UploadExc.connErr => true
  | UploadExc.httpError _ => true
  | _ => false

/-- Whether the exception is Celery's `SoftTimeLimitExceeded`. -/
def isSoftTimeLimit : UploadExc → Bool
  | UploadExc.softTimeLimit => true
  | _ => false

/-- The `str(e)` the third handler inspects. -/
def excMessage : UploadExc → String
  | UploadExc.httpError m => m
  | UploadExc.assertionError m => m
  | _ => ""

/-- How one run of the upload task interacted with the external service. -/
inductive UploadEvent
  | rateLimited
  | getItemConnError
  | uploadRaised (exc : UploadExc)
  | uploadOk
deriving DecidableEq, Repr

/-- The observable outcome of one run of the upload task: the file
status row after the run (`none` when no row exists), the net change to
`item.tasks_in_progress`, and the re-queued `(attempts, timeouts)`
arguments when the task called `retry_upload`. -/
structure UploadOutcome where
  fileStatus : Option IAFileStatus
  tasksDelta : Int
  requeue : Option (Nat × Nat)
  proceeded : Bool
deriving DecidableEq, Repr

/-- One run of `upload_link_to_internet_archive`.  On every proceeding
path the task first creates or resets the file row to
`upload_attempted` and increments `tasks_in_progress`; `retry_upload`
decrements it again before re-queuing, so a re-queued run has net delta
0 and a run that stops keeps the increment.  An exception raised by the
upload is dispatched to the first matching handler in source order:
`except SoftTimeLimitExceeded` (line 1745), `except CONNECTION_ERRORS`
(line 1761), `except (requests.exceptions.HTTPError, AssertionError)`
(line 1767); because `HTTPError` is a member of `CONNECTION_ERRORS`, the
second handler catches every HTTP error budget-free and only the
`assert response.status_code == 200` `AssertionError` reaches the third
handler's rate-limit/race/error text classification. -/
def upload_link_to_internet_archive (st : Option IAFileStatus) (ev : UploadEvent)
    (caps : RetryCaps) (attempts timeouts : Nat) : UploadOutcome :=
  if (upload_dispatch st).proceeds = false then
    { fileStatus := st, tasksDelta := 0, requeue := none, proceeded := false }
  else
    match ev with
    | UploadEvent.rateLimited =>
      if retryAllowed caps.rateLimit (attempts + 1) then
        { fileStatus := some IAFileStatus.upload_attempted, tasksDelta := 0,
          requeue := some (attempts + 1, timeouts), proceeded := true }
      else
        { fileStatus := some IAFileStatus.upload_attempted, tasksDelta := 1,
          requeue := none, proceeded := true }
    | UploadEvent.getItemConnError =>
      { fileStatus := some IAFileStatus.upload_attempted, tasksDelta := 0,
        requeue := some (attempts, timeouts), proceeded := true }
    | UploadEvent.uploadRaised exc =>
      if isSoftTimeLimit exc then
        if retryAllowed caps.maxTimeouts (timeouts + 1) then
          { fileStatus := some IAFileStatus.upload_attempted, tasksDelta := 0,
            requeue := some (attempts, timeouts + 1), proceeded := true }
        else
          { fileStatus := some IAFileStatus.upload_attempted, tasksDelta := 1,
            requeue := none, proceeded := true }
      else if matchesConnectionErrors exc then
        { fileStatus := some IAFileStatus.upload_attempted, tasksDelta := 0,
          requeue := some (attempts, timeouts), proceeded := true }
      else
        -- the third handler; of this model's exceptions only an
        -- AssertionError falls through to it
        if strContains (excMessage exc) rateLimitPhrase then
          if retryAllowed caps.rateLimit (attempts + 1) then
            { fileStatus := some IAFileStatus.upload_attempted, tasksDelta := 0,
              requeue := some (attempts + 1, timeouts), proceeded := true }
          else
            { fileStatus := some IAFileStatus.upload_attempted, tasksDelta := 1,
              requeue := none, proceeded := true }
        else if isConcurrentCreationRace (excMessage exc) then
          { fileStatus := some IAFileStatus.upload_attempted, tasksDelta := 0,
            requeue := some (attempts, timeouts), proceeded := true }
        else if retryAllowed caps.errors (attempts + 1) then
          { fileStatus := some IAFileStatus.upload_attempted, tasksDelta := 0,
            requeue := some (attempts + 1, timeouts), proceeded := true }
        else
          { fileStatus := some IAFileStatus.upload_attempted, tasksDelta := 1,
            requeue := none, proceeded := true }
    | UploadEvent.uploadOk =>
      { fileStatus := some IAFileStatus.upload_submitted, tasksDelta := 1,
        requeue := none, proceeded := true }

/-- Successive runs of the upload task following the queue: each
re-queued run starts from the file status and counters left by the
previous one; the outcome of the last executed run is returned. -/
def upload_runs (caps : RetryCaps) :
    Option IAFileStatus → Nat → Nat → List UploadEvent → UploadOutcome
  | st, attempts, timeouts, [] =>
    { fileStatus := st, tasksDelta := 0, requeue := some (attempts, timeouts),
      proceeded := false }
  | st, attempts, timeouts, ev :: rest =>
    let o := upload_link_to_internet_archive st ev caps attempts timeouts
    match o.requeue, rest with
    | some (a, t), _ :: _ => upload_runs caps o.fileStatus a t rest
    | _, _ => o

/-- Which events make the upload task increment the shared `attempts`
counter when re-queuing: the pre-upload rate-limit skip, and an
AssertionError whose text either carries the rate-limit phrase or is not
a concurrent-creation race.  HTTP errors never do: they are caught by
the `CONNECTION_ERRORS` handler. -/
def consumesAttempt : UploadEvent → Bool
  | UploadEvent.rateLimited => true
  | UploadEvent.uploadRaised (UploadExc.assertionError msg) =>
    strContains msg rateLimitPhrase || !isConcurrentCreationRace msg
  | _ => false

/-- Which events make the upload task increment the `timeouts` counter. -/
def consumesTimeout : UploadEvent → Bool
  | UploadEvent.uploadRaised UploadExc.softTimeLimit => true
  | _ => false

/-- The action selected by the status dispatch at the top of
`delete_link_from_daily_item` (lines 1963-1977). -/
inductive DeleteDispatch
  | skipAlreadyAbsent
  | skipUploadInProgress
  | proceedWithWarning
  | proceedDelete
deriving DecidableEq, Repr

/-- The status dispatch of the deletion task. -/
def delete_dispatch : IAFileStatus → DeleteDispatch
  | IAFileStatus.confirmed_absent => DeleteDispatch.skipAlreadyAbsent
  | IAFileStatus.upload_attempted => DeleteDispatch.skipUploadInProgress
  | IAFileStatus.upload_submitted => DeleteDispatch.skipUploadInProgress
  | IAFileStatus.deletion_attempted => DeleteDispatch.proceedWithWarning
  | IAFileStatus.deletion_submitted => DeleteDispatch.proceedWithWarning
  | IAFileStatus.confirmed_present => DeleteDispatch.proceedDelete

/-- Whether the deletion dispatch continues into the delete attempt. -/
def DeleteDispatch.proceeds : DeleteDispatch → Bool
  | DeleteDispatch.skipAlreadyAbsent => false
  | DeleteDispatch.skipUploadInProgress => false
  | _ => true

/-- How one run of the deletion task interacted with the external
service.  Unlike the upload task, the deletion task catches connection
errors raised by the delete call itself in the same handler as every
other HTTP error, has no `SoftTimeLimitExceeded` handler, and has no
concurrent-creation race branch, so `deleteError` covers all of those. -/
inductive DeleteEvent
  | rateLimited
  | getItemConnError
  | deleteError (msg : String)
  | deleteOk
deriving DecidableEq, Repr

/-- The observable outcome of one run of the deletion task. -/
structure DeleteOutcome where
  fileStatus : IAFileStatus
  tasksDelta : Int
  requeue : Option Nat
  proceeded : Bool
deriving DecidableEq, Repr

/-- One run of `delete_link_from_daily_item`.  On every proceeding path
the task sets the file row to `deletion_attempted` and increments
`tasks_in_progress`; `retry_deletion` decrements it again before
re-queuing. -/
def delete_link_from_daily_item (st : IAFileStatus) (ev : DeleteEvent)
    (caps : RetryCaps) (attempts : Nat) : DeleteOutcome :=
  if (delete_dispatch st).proceeds = false then
    { fileStatus := st, tasksDelta := 0, requeue := none, proceeded := false }
  else
    match ev with
    | DeleteEvent.rateLimited =>
      if retryAllowed caps.rateLimit (attempts + 1) then
        { fileStatus := IAFileStatus.deletion_attempted, tasksDelta := 0,
          requeue := some (attempts + 1), proceeded := true }
      else
        { fileStatus := IAFileStatus.deletion_attempted, tasksDelta := 1,
          requeue := none, proceeded := true }
    | DeleteEvent.getItemConnError =>
      { fileStatus := IAFileStatus.deletion_attempted, tasksDelta := 0,
        requeue := some attempts, proceeded := true }
    | DeleteEvent.deleteError msg =>
      if strContains msg rateLimitPhrase then
        if retryAllowed caps.rateLimit (attempts + 1) then
          { fileStatus := IAFileStatus.deletion_attempted, tasksDelta := 0,
            requeue := some (attempts + 1), proceeded := true }
        else
          { fileStatus := IAFileStatus.deletion_attempted, tasksDelta := 1,
            requeue := none, proceeded := true }
      else if retryAllowed caps.errors (attempts + 1) then
        { fileStatus := IAFileStatus.deletion_attempted, tasksDelta := 0,
          requeue := some (attempts + 1), proceeded := true }
      else
        { fileStatus := IAFileStatus.deletion_attempted, tasksDelta := 1,
          requeue := none, proceeded := true }
    | DeleteEvent.deleteOk =>
      { fileStatus := IAFileStatus.deletion_submitted, tasksDelta := 1,
        requeue := none, proceeded := true }

/-! ## Confirmation tasks (C3, C5). -/

/-- Modelled from the spec: `remove_whitespace` lives in `perma.utils`,
which is not part of the provided source; the spec states the
confirmation check ignores all whitespace, so the normalization deletes
every whitespace character. -/
def remove_whitespace (s : String) : String :=
  String.mk (s.data.filter (fun c => !c.isWhitespace))

/-- The `InternetArchiveFile` columns the confirmation task writes. -/
structure IAFileRec where
  status : IAFileStatus
  cachedSize : Option Nat
  cachedMeta : List (String × String)
deriving DecidableEq, Repr

/-- The `InternetArchiveItem` columns the confirmation task writes. -/
structure IAItemRec where
  confirmedExists : Bool
  itemMetaCached : Bool
  deriveRequired : Bool
  cachedFileCount : Option Nat
  tasksInProgress : Int
deriving DecidableEq, Repr

/-- What the external service reports about the file. -/
structure ExtFile where
  present : Bool
  metadata : List (String × String)
  size : Nat
deriving DecidableEq, Repr

/-- What the external service reports about the item. -/
structure ExtItem where
  filesCount : Nat
deriving DecidableEq, Repr

/-- Mirrors `ia_file.metadata.get(k, '')`. -/
def lookupMeta (l : List (String × String)) (k : String) : String :=
  ((l.find? (fun kv => kv.1 == k)).map (fun kv => kv.2)).getD ""

/-- The metadata assertion loop of the upload confirmation task: every
key of the expected dictionary must match the external value after
whitespace normalization. -/
def metadataMatches (expected extMeta : List (String × String)) : Bool :=
  expected.all (fun kv =>
    remove_whitespace (lookupMeta extMeta kv.1) == remove_whitespace kv.2)

/-- Whether fetching the item and file metadata raised a connection
error, or returned external views. -/
inductive ConfirmFetch
  | connError
  | fetched (f : ExtFile) (it : ExtItem)
deriving DecidableEq, Repr

/-- The observable outcome of one run of a confirmation task. -/
structure ConfirmOutcome where
  file : IAFileRec
  item : IAItemRec
  requeue : Option (Nat × Nat)
deriving DecidableEq, Repr

/-- One run of `confirm_file_uploaded_to_internet_archive`: on an
already-confirmed file it returns at once; on a connection error it
re-queues itself (keeping `attempts`, incrementing `connection_errors`)
while under the confirmation connection-error limit; on a successful
fetch it either confirms (when the file exists and all expected metadata
matches) or leaves everything unchanged without re-queuing. -/
def confirm_file_uploaded_to_internet_archive (f : IAFileRec) (it : IAItemRec)
    (fetch : ConfirmFetch) (expected : List (String × String))
    (attempts connectionErrors connCap : Nat) : ConfirmOutcome :=
  if f.status = IAFileStatus.confirmed_present then
    { file := f, item := it, requeue := none }
  else
    match fetch with
    | ConfirmFetch.connError =>
      { file := f, item := it,
        requeue :=
          if connectionErrors < connCap then some (attempts, connectionErrors + 1)
          else none }
    | ConfirmFetch.fetched ef ei =>
      if ef.present && metadataMatches expected ef.metadata then
        { file :=
            { status := IAFileStatus.confirmed_present,
              cachedSize := some ef.size, cachedMeta := ef.metadata },
          item :=
            { confirmedExists := true,
              itemMetaCached :=
                if !it.confirmedExists then true else it.itemMetaCached,
              deriveRequired := true,
              cachedFileCount := some ei.filesCount,
              tasksInProgress := max (it.tasksInProgress - 1) 0 },
          requeue := none }
      else
        { file := f, item := it, requeue := none }

/-- One run of `confirm_file_deleted_from_daily_item`: symmetric to the
upload confirmation, except that a still-present file re-queues under
the error budget with `connection_errors` reset to its default 0, and a
confirmed deletion zeroes the cached file metadata. -/
def confirm_file_deleted_from_daily_item (f : IAFileRec) (it : IAItemRec)
    (fetch : ConfirmFetch) (attempts connectionErrors connCap errorCap : Nat) :
    ConfirmOutcome :=
  if f.status = IAFileStatus.confirmed_absent then
    { file := f, item := it, requeue := none }
  else
    match fetch with
    | ConfirmFetch.connError =>
      { file := f, item := it,
        requeue :=
          if connectionErrors < connCap then some (attempts, connectionErrors + 1)
          else none }
    | ConfirmFetch.fetched ef ei =>
      if ef.present then
        { file := f, item := it,
          requeue :=
            if retryAllowed errorCap (attempts + 1) then some (attempts + 1, 0)
            else none }
      else
        { file :=
            { status := IAFileStatus.confirmed_absent,
              cachedSize := none, cachedMeta := [] },
          item :=
            { it with
              deriveRequired := true,
              cachedFileCount := some ei.filesCount,
              tasksInProgress := max (it.tasksInProgress - 1) 0 },
          requeue := none }


/-! # Theorems -/

/-! ## C1 helper lemmas -/

theorem sizeExceeded_false_of_le {m : Option Nat} {a b : Nat} (hab : a ≤ b)
    (h : sizeExceeded m b = false) : sizeExceeded m a = false := by
  cases m with
  | none => rfl
  | some k =>
    simp only [sizeExceeded, decide_eq_false_iff_not, not_lt] at h ⊢
    omega

theorem totalChunks_cons (s : ReadStep) (rest : List ReadStep) :
    totalChunks (s :: rest) = s.chunk + totalChunks rest := by
  simp [totalChunks]

theorem checkTrunc_eq_time {maxSize : Option Nat} {hasCL : Bool} {len : Nat}
    {s : ReadStep} (h : checkTrunc maxSize hasCL len s = some Trunc.time) :
    timeExceeded hasCL s.elapsed = true := by
  unfold checkTrunc at h
  by_cases h1 : sizeExceeded maxSize len = true
  · simp [h1] at h
  · simp only [Bool.not_eq_true] at h1
    by_cases h2 : timeExceeded hasCL s.elapsed = true
    · exact h2
    · simp only [Bool.not_eq_true] at h2
      by_cases h3 : s.stop = true <;> simp [h1, h2, h3] at h

theorem checkTrunc_eq_length {maxSize : Option Nat} {hasCL : Bool} {len : Nat}
    {s : ReadStep} (h : checkTrunc maxSize hasCL len s = some Trunc.length) :
    sizeExceeded maxSize len = true ∨ s.stop = true := by
  unfold checkTrunc at h
  by_cases h1 : sizeExceeded maxSize len = true
  · exact Or.inl h1
  · simp only [Bool.not_eq_true] at h1
    by_cases h2 : timeExceeded hasCL s.elapsed = true
    · simp [h1, h2] at h
    · simp only [Bool.not_eq_true] at h2
      by_cases h3 : s.stop = true
      · exact Or.inr h3
      · simp [h1, h2, h3] at h

theorem sizeExceeded_eq_true {m : Option Nat} {len : Nat}
    (h : sizeExceeded m len = true) : ∃ k, m = some k ∧ k < len := by
  cases m with
  | none => simp [sizeExceeded] at h
  | some k => exact ⟨k, rfl, by simpa [sizeExceeded] using h⟩

theorem timeExceeded_eq_true {hasCL : Bool} {elapsed : Nat}
    (h : timeExceeded hasCL elapsed = true) :
    hasCL = false ∧ 3 * 60 * 60 < elapsed := by
  simp only [timeExceeded, Bool.and_eq_true, Bool.not_eq_true', decide_eq_true_eq] at h
  exact h

theorem read_loop_none_of_safe (maxSize : Option Nat) (hasCL : Bool) :
    ∀ (steps : List ReadStep) (len : Nat),
      (∀ s ∈ steps, s.stop = false) →
      (∀ s ∈ steps, timeExceeded hasCL s.elapsed = false) →
      sizeExceeded maxSize (len + totalChunks steps) = false →
      (stoppable_read_loop maxSize hasCL len steps).2 = none := by
  intro steps
  induction steps with
  | nil => intro len _ _ _; rfl
  | cons s rest ih =>
    intro len hstop htime hsize
    have hs : s.stop = false := hstop s (by simp)
    have ht : timeExceeded hasCL s.elapsed = false := htime s (by simp)
    have hle : len + s.chunk ≤ len + totalChunks (s :: rest) := by
      rw [totalChunks_cons]; omega
    have hsz : sizeExceeded maxSize (len + s.chunk) = false :=
      sizeExceeded_false_of_le hle hsize
    have hct : checkTrunc maxSize hasCL (len + s.chunk) s = none := by
      simp [checkTrunc, hsz, ht, hs]
    simp only [stoppable_read_loop, hct]
    by_cases hz : s.chunk = 0
    · simp [hz]
    · simp only [hz, if_false]
      apply ih (len + s.chunk) (fun x hx => hstop x (by simp [hx]))
        (fun x hx => htime x (by simp [hx]))
      have : len + s.chunk + totalChunks rest = len + totalChunks (s :: rest) := by
        rw [totalChunks_cons]; omega
      rw [this]; exact hsize

theorem read_loop_time_cases (maxSize : Option Nat) (hasCL : Bool) :
    ∀ (steps : List ReadStep) (len : Nat),
      (stoppable_read_loop maxSize hasCL len steps).2 = some Trunc.time →
      hasCL = false ∧ ∃ s ∈ steps, 3 * 60 * 60 < s.elapsed := by
  intro steps
  induction steps with
  | nil => intro len h; simp [stoppable_read_loop] at h
  | cons s rest ih =>
    intro len h
    simp only [stoppable_read_loop] at h
    cases hct : checkTrunc maxSize hasCL (len + s.chunk) s with
    | some t =>
      rw [hct] at h
      simp only at h
      cases t with
      | length => simp at h
      | time =>
        obtain ⟨h1, h2⟩ := timeExceeded_eq_true (checkTrunc_eq_time hct)
        exact ⟨h1, s, by simp, h2⟩
    | none =>
      rw [hct] at h
      by_cases hz : s.chunk = 0
      · simp [hz] at h
      · simp only [hz, if_false] at h
        obtain ⟨h1, x, hx, h2⟩ := ih (len + s.chunk) h
        exact ⟨h1, x, by simp [hx], h2⟩

theorem read_loop_length_cases (maxSize : Option Nat) (hasCL : Bool) :
    ∀ (steps : List ReadStep) (len : Nat),
      (stoppable_read_loop maxSize hasCL len steps).2 = some Trunc.length →
      (∃ m, maxSize = some m ∧
        m < (stoppable_read_loop maxSize hasCL len steps).1) ∨
        ∃ s ∈ steps, s.stop = true := by
  intro steps
  induction steps with
  | nil => intro len h; simp [stoppable_read_loop] at h
  | cons s rest ih =>
    intro len h
    cases hct : checkTrunc maxSize hasCL (len + s.chunk) s with
    | some t =>
      have hres : stoppable_read_loop maxSize hasCL len (s :: rest)
          = (len + s.chunk, some t) := by
        simp only [stoppable_read_loop, hct]
      rw [hres] at h ⊢
      simp only at h
      cases t with
      | time => simp at h
      | length =>
        rcases checkTrunc_eq_length hct with hsz | hstop
        · obtain ⟨k, hk, hlt⟩ := sizeExceeded_eq_true hsz
          exact Or.inl ⟨k, hk, hlt⟩
        · exact Or.inr ⟨s, by simp, hstop⟩
    | none =>
      by_cases hz : s.chunk = 0
      · have hres : stoppable_read_loop maxSize hasCL len (s :: rest)
            = (len + s.chunk, none) := by
          simp only [stoppable_read_loop, hct]
          rw [if_pos hz]
        rw [hres] at h
        simp at h
      · have hres : stoppable_read_loop maxSize hasCL len (s :: rest)
            = stoppable_read_loop maxSize hasCL (len + s.chunk) rest := by
          simp only [stoppable_read_loop, hct]
          rw [if_neg hz]
        rw [hres] at h ⊢
        rcases ih (len + s.chunk) h with ⟨k, hk, hlt⟩ | ⟨x, hx, hstop⟩
        · exact Or.inl ⟨k, hk, hlt⟩
        · exact Or.inr ⟨x, by simp [hx], hstop⟩

/-! ## C1 -/

/-- C1: amended.  The inner read loop of `stoppable_proxy_request` reads a
stream to completion without truncation when no chunk triggers any of the
three checks (the recorded length never exceeds a configured maximum
resource size, no check happens after three hours on a response without
Content-Length, and the stop flag is never seen set); a run that ends
truncated with marker time happened on a response without Content-Length
with some check past three hours; a run that ends truncated with marker
length had the recorded byte count exceed the configured maximum or saw
the stop flag set.  (As stated, the claim is refuted by
`C1_read_loop_counterexample`: the time check has priority over the stop
check, so a stopped stream can be marked truncated with marker time.) -/
theorem C1_read_loop_truncation :
    (∀ (maxSize : Option Nat) (hasContentLength : Bool) (len : Nat)
        (steps : List ReadStep),
        (∀ s ∈ steps, s.stop = false) →
        (∀ s ∈ steps, timeExceeded hasContentLength s.elapsed = false) →
        sizeExceeded maxSize (len + totalChunks steps) = false →
        (stoppable_read_loop maxSize hasContentLength len steps).2 = none) ∧
    (∀ (maxSize : Option Nat) (hasContentLength : Bool) (len : Nat)
        (steps : List ReadStep),
        (stoppable_read_loop maxSize hasContentLength len steps).2 = some Trunc.time →
        hasContentLength = false ∧ ∃ s ∈ steps, 3 * 60 * 60 < s.elapsed) ∧
    (∀ (maxSize : Option Nat) (hasContentLength : Bool) (len : Nat)
        (steps : List ReadStep),
        (stoppable_read_loop maxSize hasContentLength len steps).2 = some Trunc.length →
        (∃ m, maxSize = some m ∧
          m < (stoppable_read_loop maxSize hasContentLength len steps).1) ∨
          ∃ s ∈ steps, s.stop = true) :=
  ⟨fun maxSize hasCL len steps => read_loop_none_of_safe maxSize hasCL steps len,
   fun maxSize hasCL len steps => read_loop_time_cases maxSize hasCL steps len,
   fun maxSize hasCL len steps => read_loop_length_cases maxSize hasCL steps len⟩

/-- C1 counterexample: on a response without Content-Length, a chunk read
with the stop flag set after more than three hours of streaming is marked
truncated with marker time, not marker length, refuting the claim that
the record is marked truncated with marker length whenever the stop flag
has been set. -/
theorem C1_read_loop_counterexample :
    stoppable_read_loop (some 1000000) false 0
      [ReadStep.mk 1 10801 true] = (1, some Trunc.time) ∧
      some Trunc.time ≠ some Trunc.length := by decide

/-- C1 witness: a two-chunk stream that triggers no check is read to
completion untruncated. -/
theorem C1_read_loop_witness :
    (stoppable_read_loop (some 5) true 0
      [ReadStep.mk 1 0 false, ReadStep.mk 0 1 false]).2 = none :=
  C1_read_loop_truncation.1 (some 5) true 0
    [ReadStep.mk 1 0 false, ReadStep.mk 0 1 false]
    (by decide) (by decide) (by decide)


/-! ## C6 helper lemmas -/

theorem scan_sound :
    ∀ (pairs : List PPair) (r : PResp),
      scan_proxied_pairs pairs = some r →
      isFaviconResponse r = false ∧
      redirectOrPartialStatuses.contains r.status = false ∧
      ∃ p ∈ pairs, p.response = some r := by
  intro pairs
  induction pairs with
  | nil => intro r h; simp [scan_proxied_pairs] at h
  | cons p rest ih =>
    intro r h
    cases hp : p.response with
    | none =>
      simp only [scan_proxied_pairs, hp] at h
      exact Option.noConfusion h
    | some r0 =>
      simp only [scan_proxied_pairs, hp] at h
      by_cases hf : isFaviconResponse r0 = true
      · rw [if_pos hf] at h
        obtain ⟨h1, h2, q, hq, hq2⟩ := ih r h
        exact ⟨h1, h2, q, by simp [hq], hq2⟩
      · rw [if_neg hf] at h
        by_cases hr : redirectOrPartialStatuses.contains r0.status = true
        · rw [if_pos hr] at h
          obtain ⟨h1, h2, q, hq, hq2⟩ := ih r h
          exact ⟨h1, h2, q, by simp [hq], hq2⟩
        · rw [if_neg hr] at h
          obtain rfl : r0 = r := by injection h
          refine ⟨by simpa using hf, by simpa using hr, p, by simp, hp⟩

theorem scan_complete :
    ∀ (pairs : List PPair),
      (∀ p ∈ pairs, p.response.isSome = true) →
      (∃ p ∈ pairs, ∃ r, p.response = some r ∧
        isFaviconResponse r = false ∧
        redirectOrPartialStatuses.contains r.status = false) →
      (scan_proxied_pairs pairs).isSome = true := by
  intro pairs
  induction pairs with
  | nil => rintro _ ⟨p, hp, _⟩; simp at hp
  | cons p rest ih =>
    rintro hall ⟨q, hq, r, hr, hr1, hr2⟩
    have hp0 : p.response.isSome = true := hall p (by simp)
    obtain ⟨r0, hp⟩ := Option.isSome_iff_exists.mp hp0
    simp only [scan_proxied_pairs, hp]
    by_cases hf : isFaviconResponse r0 = true
    · rw [if_pos hf]
      rcases List.mem_cons.mp hq with rfl | hq'
      · rw [hp] at hr
        obtain rfl : r0 = r := by injection hr
        rw [hf] at hr1; cases hr1
      · exact ih (fun x hx => hall x (by simp [hx])) ⟨q, hq', r, hr, hr1, hr2⟩
    · rw [if_neg hf]
      by_cases hrd : redirectOrPartialStatuses.contains r0.status = true
      · rw [if_pos hrd]
        rcases List.mem_cons.mp hq with rfl | hq'
        · rw [hp] at hr
          obtain rfl : r0 = r := by injection hr
          rw [hrd] at hr2; cases hr2
        · exact ih (fun x hx => hall x (by simp [hx])) ⟨q, hq', r, hr, hr1, hr2⟩
      · rw [if_neg hrd]; rfl

theorem await_content_first (timeout : Nat) :
    ∀ (snaps : List Snapshot) (r : PResp),
      await_first_useful timeout snaps = AwaitOutcome.content r →
      ∃ pre s post, snaps = pre ++ s :: post ∧
        scan_proxied_pairs s.pairs = some r ∧
        ∀ s' ∈ pre, scan_proxied_pairs s'.pairs = none := by
  intro snaps
  induction snaps with
  | nil => intro r h; simp [await_first_useful] at h
  | cons s rest ih =>
    intro r h
    cases hscan : scan_proxied_pairs s.pairs with
    | some r0 =>
      simp only [await_first_useful, hscan] at h
      obtain rfl : r0 = r := by injection h
      exact ⟨[], s, rest, by simp, hscan, by simp⟩
    | none =>
      simp only [await_first_useful, hscan] at h
      by_cases ht : timeout < s.waitTime
      · rw [if_pos ht] at h; cases h
      · rw [if_neg ht] at h
        obtain ⟨pre, s', post, hsplit, hs', hpre⟩ := ih r h
        refine ⟨s :: pre, s', post, by simp [hsplit], hs', ?_⟩
        intro x hx
        rcases List.mem_cons.mp hx with rfl | hx'
        · exact hscan
        · exact hpre x hx'

theorem await_halted_of_timeout (timeout : Nat) :
    ∀ (snaps : List Snapshot),
      (∀ s ∈ snaps, scan_proxied_pairs s.pairs = none) →
      (∃ s ∈ snaps, timeout < s.waitTime) →
      await_first_useful timeout snaps = AwaitOutcome.halted := by
  intro snaps
  induction snaps with
  | nil => rintro _ ⟨s, hs, _⟩; simp at hs
  | cons s rest ih =>
    rintro hall ⟨q, hq, hqt⟩
    have hscan : scan_proxied_pairs s.pairs = none := hall s (by simp)
    simp only [await_first_useful, hscan]
    by_cases ht : timeout < s.waitTime
    · rw [if_pos ht]
    · rw [if_neg ht]
      rcases List.mem_cons.mp hq with rfl | hq'
      · cases ht hqt
      · exact ih (fun x hx => hall x (by simp [hx])) ⟨q, hq', hqt⟩

/-! ## C6 -/

/-- C6: amended.  The await-first-useful-response loop of
`run_next_capture` selects only a completed response that is neither a
favicon URL (any URL ending in /favicon.ico — the target URL included,
since the source compares the bytes response.url with the str target_url
and the inequality always holds) nor a redirect/partial-content status
(soundness); a scan pass succeeds when every pair has completed and some
pair is useful, but the scan waits at the first pair whose response is
still pending, so a useful completed response does not by itself end the
blocking (refuted as stated by `C6_await_counterexample`); the selected
response comes from the first snapshot whose scan succeeds, so once
fixed it is never reassigned by later responses; and when every scan
fails and the wait time exceeds `RESOURCE_LOAD_TIMEOUT`, the loop raises
`HaltCaptureException`, which is fatal to the job. -/
theorem C6_first_useful_response :
    (∀ (pairs : List PPair) (r : PResp),
        scan_proxied_pairs pairs = some r →
        isFaviconResponse r = false ∧
        redirectOrPartialStatuses.contains r.status = false ∧
        ∃ p ∈ pairs, p.response = some r) ∧
    (∀ (pairs : List PPair),
        (∀ p ∈ pairs, p.response.isSome = true) →
        (∃ p ∈ pairs, ∃ r, p.response = some r ∧
          isFaviconResponse r = false ∧
          redirectOrPartialStatuses.contains r.status = false) →
        (scan_proxied_pairs pairs).isSome = true) ∧
    (∀ (timeout : Nat) (snaps : List Snapshot) (r : PResp),
        await_first_useful timeout snaps = AwaitOutcome.content r →
        ∃ pre s post, snaps = pre ++ s :: post ∧
          scan_proxied_pairs s.pairs = some r ∧
          ∀ s' ∈ pre, scan_proxied_pairs s'.pairs = none) ∧
    (∀ (timeout : Nat) (snaps : List Snapshot),
        (∀ s ∈ snaps, scan_proxied_pairs s.pairs = none) →
        (∃ s ∈ snaps, timeout < s.waitTime) →
        await_first_useful timeout snaps = AwaitOutcome.halted) :=
  ⟨fun pairs r => scan_sound pairs r,
   fun pairs => scan_complete pairs,
   fun timeout snaps r => await_content_first timeout snaps r,
   fun timeout snaps => await_halted_of_timeout timeout snaps⟩

/-- C6 counterexample: the first proxied pair is still pending while a
later pair already holds a completed, non-favicon, non-redirect
response; the loop nevertheless keeps blocking and, past the timeout,
aborts the capture as fatal, refuting the claim that the orchestrator
blocks only until some pair has a completed useful response and that
the timeout abort happens only when no such response appeared. -/
theorem C6_await_counterexample :
    await_first_useful 300
      [Snapshot.mk [PPair.mk "a" none, PPair.mk "b" (some (PResp.mk "b" 200))] 301]
      = AwaitOutcome.halted ∧
    isFaviconResponse (PResp.mk "b" 200) = false ∧
    redirectOrPartialStatuses.contains (PResp.mk "b" 200).status = false ∧
    PPair.mk "b" (some (PResp.mk "b" 200)) ∈
      [PPair.mk "a" none, PPair.mk "b" (some (PResp.mk "b" 200))] ∧
    (PPair.mk "b" (some (PResp.mk "b" 200))).response = some (PResp.mk "b" 200) := by
  decide

/-- C6 witness: a list whose pairs are all completed and contain a
useful response is selected by the scan. -/
theorem C6_first_useful_response_witness :
    (scan_proxied_pairs [PPair.mk "t" (some (PResp.mk "t" 200))]).isSome = true :=
  C6_first_useful_response.2.1 [PPair.mk "t" (some (PResp.mk "t" 200))]
    (by decide)
    ⟨PPair.mk "t" (some (PResp.mk "t" 200)), by decide, PResp.mk "t" 200,
      by decide, by decide, by decide⟩

/-! ## C7 helper lemmas -/

theorem foldl_or_eq_any {α : Type} (f : α → Bool) :
    ∀ (l : List α) (b : Bool), l.foldl (fun d x => d || f x) b = (b || l.any f) := by
  intro l
  induction l with
  | nil => intro b; simp
  | cons x xs ih => intro b; simp [List.foldl_cons, ih, Bool.or_assoc]

theorem singleton_contains_iff (x a : String) :
    ([x].contains a) = true ↔ x = a := by
  constructor
  · intro hc
    by_cases h : a = x
    · exact h.symm
    · have hbe : (a == x) = false := by
        simpa [beq_iff_eq] using h
      simp [List.contains, List.elem, hbe] at hc
  · intro h
    subst h
    simp [List.contains, List.elem]

theorem directive_triggers_parsed_iff (flag : Bool) (d : String) (P : List String) :
    directive_triggers_parsed flag d P = true ↔
      ((flag = true ∧ P = ["noarchive"]) ∨
       (∃ t, P = ["perma", t] ∧ strContains t "noarchive" = true) ∨
       (¬(flag = true ∧ P.length = 1) ∧ P.length ≠ 2 ∧
         strContains d "perma" = true ∧ strContains d "noarchive" = true)) := by
  unfold directive_triggers_parsed
  rcases P with _ | ⟨x, _ | ⟨y, P2⟩⟩
  · -- parsed = []
    rw [if_neg (by simp), if_neg (by simp)]
    simp only [Bool.and_eq_true]
    constructor
    · rintro ⟨h1, h2⟩
      exact Or.inr (Or.inr ⟨by rintro ⟨_, h0⟩; simp at h0, by simp, h1, h2⟩)
    · rintro (⟨_, hp⟩ | ⟨t, hp, _⟩ | ⟨_, _, h1, h2⟩)
      · exact List.noConfusion hp
      · exact List.noConfusion hp
      · exact ⟨h1, h2⟩
  · -- parsed = [x]
    by_cases hf : flag = true
    · rw [if_pos (by simp [hf])]
      rw [singleton_contains_iff]
      constructor
      · intro h
        exact Or.inl ⟨hf, by rw [h]⟩
      · rintro (⟨_, hp⟩ | ⟨t, hp, _⟩ | ⟨hnot, _, _⟩)
        · simpa using hp
        · injection hp with _ h2
          exact List.noConfusion h2
        · exact absurd ⟨hf, rfl⟩ hnot
    · have hff : flag = false := by revert hf; cases flag <;> simp
      subst hff
      rw [if_neg (by simp), if_neg (by simp)]
      simp only [Bool.and_eq_true]
      constructor
      · rintro ⟨h1, h2⟩
        refine Or.inr (Or.inr ⟨?_, ?_, h1, h2⟩)
        · rintro ⟨h0, _⟩
          cases h0
        · simp
      · rintro (⟨hp, _⟩ | ⟨t, hp, _⟩ | ⟨_, _, h1, h2⟩)
        · cases hp
        · injection hp with _ h2
          exact List.noConfusion h2
        · exact ⟨h1, h2⟩
  · rcases P2 with _ | ⟨z, P3⟩
    · -- parsed = [x, y]
      rw [if_neg (by cases flag <;> simp), if_pos (by simp)]
      simp only [List.getD_cons_zero, List.getD_cons_succ, Bool.and_eq_true,
        beq_iff_eq]
      constructor
      · rintro ⟨h1, h2⟩
        exact Or.inr (Or.inl ⟨y, by rw [h1], h2⟩)
      · rintro (⟨_, hp⟩ | ⟨t, hp, ht⟩ | ⟨_, hne, _, _⟩)
        · injection hp with _ h2
          exact List.noConfusion h2
        · injection hp with h1 h2
          injection h2 with h2 _
          subst h2
          exact ⟨h1, ht⟩
        · exact absurd rfl hne
    · -- parsed has three or more pieces
      have hne1 : ((x :: y :: z :: P3).length == 1) = false := by
        rw [beq_eq_false_iff_ne]
        simp
      have hne2 : ((x :: y :: z :: P3).length == 2) = false := by
        rw [beq_eq_false_iff_ne]
        simp
      rw [if_neg (by simp [hne1]), if_neg (by simp [hne2])]
      simp only [Bool.and_eq_true]
      constructor
      · rintro ⟨h1, h2⟩
        refine Or.inr (Or.inr ⟨?_, ?_, h1, h2⟩)
        · rintro ⟨_, h0⟩
          simp at h0
        · simp
      · rintro (⟨_, hp⟩ | ⟨t, hp, _⟩ | ⟨_, _, h1, h2⟩)
        · injection hp with _ h2
          exact List.noConfusion h2
        · injection hp with _ h2
          injection h2 with _ h3
          exact List.noConfusion h3
        · exact ⟨h1, h2⟩

theorem directive_triggers_iff (flag : Bool) (d : String) :
    directive_triggers flag d = true ↔
      ((flag = true ∧ splitStr ':' (lowerStr d) = ["noarchive"]) ∨
       (∃ t, splitStr ':' (lowerStr d) = ["perma", t] ∧
         strContains t "noarchive" = true) ∨
       (¬(flag = true ∧ (splitStr ':' (lowerStr d)).length = 1) ∧
         (splitStr ':' (lowerStr d)).length ≠ 2 ∧
         strContains d "perma" = true ∧ strContains d "noarchive" = true)) := by
  unfold directive_triggers
  exact directive_triggers_parsed_iff flag d (splitStr ':' (lowerStr d))
theorem xrobots_blacklists_perma_iff (flag : Bool) (s : String) :
    xrobots_blacklists_perma flag s = true ↔
      ∃ d ∈ splitStr ';' s, directive_triggers flag d = true := by
  unfold xrobots_blacklists_perma
  by_cases hs : (s == "") = true
  · have hs' : s = "" := by simpa using hs
    rw [if_pos hs]
    subst hs'
    constructor
    · intro h; cases h
    · rintro ⟨d, hd, htrig⟩
      have hde : d = "" := by
        have hsplit : splitStr ';' "" = [""] := by decide
        rw [hsplit] at hd
        simpa using hd
      subst hde
      cases flag with
      | false => exact absurd htrig (by decide)
      | true => exact absurd htrig (by decide)
  · rw [if_neg hs]
    rw [foldl_or_eq_any (directive_triggers flag) (splitStr ';' s) false]
    rw [Bool.false_or]
    exact List.any_eq_true

/-! ## C7 -/

/-- C7: amended.  The values of multiple x-robots-tag headers are joined
with a semicolon (after stripping CR and LF) and the joined string is
split on semicolons into directives.  The link is then marked
is_private with private_reason policy exactly when some directive
triggers, where a directive triggers when: it splits on colons into
exactly `perma` and a tail containing `noarchive`; or it is a generic
directive (no colon) equal, after lowercasing, to exactly `noarchive` —
this only when PRIVATE_LINKS_IF_GENERIC_NOARCHIVE is enabled; or, as a
fallback for directives with two or more colons (or one piece with the
generic policy off), the raw directive contains both `perma` and
`noarchive` as substrings.  (As stated, the claim is refuted by
`C7_xrobots_counterexample`: a generic directive merely containing
`noarchive` does not trigger; it must equal it.) -/
theorem C7_xrobots_parsing :
    (∀ (flag : Bool) (s : String),
      xrobots_blacklists_perma flag s = true ↔
        ∃ d ∈ splitStr ';' s,
          ((flag = true ∧ splitStr ':' (lowerStr d) = ["noarchive"]) ∨
           (∃ t, splitStr ':' (lowerStr d) = ["perma", t] ∧
             strContains t "noarchive" = true) ∨
           (¬(flag = true ∧ (splitStr ':' (lowerStr d)).length = 1) ∧
             (splitStr ':' (lowerStr d)).length ≠ 2 ∧
             strContains d "perma" = true ∧ strContains d "noarchive" = true))) ∧
    (∀ (flag : Bool) (s : String) (link : LinkRec),
      xrobots_blacklists_perma flag s = true →
        apply_xrobots_check flag s link =
          { link with is_private := true, private_reason := some "policy" }) ∧
    (∀ (flag : Bool) (s : String) (link : LinkRec),
      xrobots_blacklists_perma flag s = false →
        apply_xrobots_check flag s link = link) := by
  refine ⟨fun flag s => ?_, fun flag s link h => ?_, fun flag s link h => ?_⟩
  · rw [xrobots_blacklists_perma_iff]
    constructor
    · rintro ⟨d, hd, htrig⟩
      exact ⟨d, hd, (directive_triggers_iff flag d).mp htrig⟩
    · rintro ⟨d, hd, hcases⟩
      exact ⟨d, hd, (directive_triggers_iff flag d).mpr hcases⟩
  · unfold apply_xrobots_check
    rw [if_pos h]
  · unfold apply_xrobots_check
    rw [h]
    simp

/-- C7 counterexample: with the generic-noarchive policy enabled, the
single generic x-robots directive `noarchive, noindex` (it names no
user-agent and contains `noarchive`) does not trigger the private/policy
marking, because the source tests list membership, not containment, in
the generic branch. -/
theorem C7_xrobots_counterexample :
    xrobots_blacklists_perma true (parse_x_robots_tag ["noarchive, noindex"]) = false ∧
    parse_x_robots_tag ["noarchive, noindex"] = "noarchive, noindex" ∧
    (splitStr ':' (lowerStr "noarchive, noindex")).length = 1 ∧
    strContains "noarchive, noindex" "noarchive" = true := by decide

/-- C7 witness: a directive naming perma with noarchive triggers the
marking. -/
theorem C7_xrobots_witness :
    xrobots_blacklists_perma false "Perma: noarchive" = true :=
  (C7_xrobots_parsing.1 false "Perma: noarchive").mpr
    ⟨"Perma: noarchive", by decide,
      Or.inr (Or.inl ⟨" noarchive", by decide, by decide⟩)⟩


/-! ## C8 helper lemmas -/

theorem process_metadata_fields (flag : Bool) (tags : List (String × String))
    (title : String) (link : LinkRec) :
    (process_metadata flag tags title link).is_private
        = (meta_triggers_private flag tags || link.is_private) ∧
    (process_metadata flag tags title link).private_reason
        = (if meta_triggers_private flag tags then some "policy"
           else link.private_reason) ∧
    (process_metadata flag tags title link).submitted_title = takeStr 2100 title ∧
    (process_metadata flag tags title link).submitted_description
        = (match metaGet tags "description" with
           | some d =>
             if d != "" then some (takeStr 300 d) else link.submitted_description
           | none => link.submitted_description) := by
  unfold process_metadata
  cases hd : metaGet tags "description" with
  | none =>
    by_cases htr : meta_triggers_private flag tags = true <;> simp [htr, hd]
  | some d =>
    by_cases htr : meta_triggers_private flag tags = true <;>
      by_cases hde : (d != "") = true <;> simp [htr, hde, hd]

theorem meta_noarchive_tag_of_perma (flag : Bool) (tags : List (String × String))
    (h : (metaGet tags "perma").getD "" ≠ "") :
    meta_noarchive_tag flag tags = metaGet tags "perma" := by
  have hb : ((metaGet tags "perma").getD "" == "") = false := by
    simpa [beq_iff_eq] using h
  simp [meta_noarchive_tag, hb]

theorem meta_noarchive_tag_generic (tags : List (String × String))
    (h : (metaGet tags "perma").getD "" = "") :
    meta_noarchive_tag true tags = metaGet tags "robots" := by
  simp [meta_noarchive_tag, h]

theorem meta_noarchive_tag_flag_off (tags : List (String × String)) :
    meta_noarchive_tag false tags = metaGet tags "perma" := by
  simp [meta_noarchive_tag]

theorem meta_triggers_private_iff (flag : Bool) (tags : List (String × String)) :
    meta_triggers_private flag tags = true ↔
      ∃ c, meta_noarchive_tag flag tags = some c ∧ c ≠ "" ∧
        strContains (lowerStr c) "noarchive" = true := by
  unfold meta_triggers_private
  cases hm : meta_noarchive_tag flag tags with
  | none => simp
  | some c =>
    simp only [Option.getD_some, Bool.and_eq_true, bne_iff_ne, ne_eq]
    constructor
    · rintro ⟨h1, h2⟩
      exact ⟨c, rfl, h1, h2⟩
    · rintro ⟨c', hc', h1, h2⟩
      obtain rfl : c = c' := by injection hc'
      exact ⟨h1, h2⟩

/-! ## C8 -/

/-- C8: amended.  When capture metadata is persisted, the link is marked
is_private with private_reason policy exactly when the consulted meta
tag is non-empty and its lowercased content contains noarchive, where
the consulted tag is the perma tag, falling back to the generic robots
tag only when PRIVATE_LINKS_IF_GENERIC_NOARCHIVE is enabled and the
perma tag is absent or empty (so a non-empty perma tag without noarchive
shadows a robots noarchive tag — refuted as stated by
`C8_process_metadata_counterexample`); the submitted title is persisted
truncated to 2100 characters and a non-empty description meta tag to 300
characters. -/
theorem C8_process_metadata :
    (∀ (flag : Bool) (tags : List (String × String)) (title : String)
        (link : LinkRec),
      (process_metadata flag tags title link).is_private
        = (meta_triggers_private flag tags || link.is_private)) ∧
    (∀ (flag : Bool) (tags : List (String × String)) (title : String)
        (link : LinkRec),
      (process_metadata flag tags title link).private_reason
        = if meta_triggers_private flag tags then some "policy"
          else link.private_reason) ∧
    (∀ (flag : Bool) (tags : List (String × String)) (title : String)
        (link : LinkRec),
      (process_metadata flag tags title link).submitted_title
        = takeStr 2100 title) ∧
    (∀ (flag : Bool) (tags : List (String × String)) (title : String)
        (link : LinkRec) (d : String),
      metaGet tags "description" = some d → d ≠ "" →
      (process_metadata flag tags title link).submitted_description
        = some (takeStr 300 d)) ∧
    (∀ (flag : Bool) (tags : List (String × String)) (title : String)
        (link : LinkRec),
      metaGet tags "description" = none →
      (process_metadata flag tags title link).submitted_description
        = link.submitted_description) ∧
    (∀ (flag : Bool) (tags : List (String × String)),
      meta_triggers_private flag tags = true ↔
        ∃ c, meta_noarchive_tag flag tags = some c ∧ c ≠ "" ∧
          strContains (lowerStr c) "noarchive" = true) ∧
    (∀ (flag : Bool) (tags : List (String × String)),
      (metaGet tags "perma").getD "" ≠ "" →
      meta_noarchive_tag flag tags = metaGet tags "perma") ∧
    (∀ (tags : List (String × String)),
      (metaGet tags "perma").getD "" = "" →
      meta_noarchive_tag true tags = metaGet tags "robots") ∧
    (∀ (tags : List (String × String)),
      meta_noarchive_tag false tags = metaGet tags "perma") := by
  refine ⟨fun flag tags title link => (process_metadata_fields flag tags title link).1,
    fun flag tags title link => (process_metadata_fields flag tags title link).2.1,
    fun flag tags title link => (process_metadata_fields flag tags title link).2.2.1,
    fun flag tags title link d hd hne => ?_,
    fun flag tags title link hd => ?_,
    fun flag tags => meta_triggers_private_iff flag tags,
    fun flag tags h => meta_noarchive_tag_of_perma flag tags h,
    fun tags h => meta_noarchive_tag_generic tags h,
    fun tags => meta_noarchive_tag_flag_off tags⟩
  · have h4 := (process_metadata_fields flag tags title link).2.2.2
    rw [hd] at h4
    rw [h4]
    dsimp only
    rw [if_pos (by simpa [bne_iff_ne] using hne)]
  · have h4 := (process_metadata_fields flag tags title link).2.2.2
    rw [hd] at h4
    exact h4

/-- C8 counterexample: with the generic policy enabled, a page carrying a
non-empty perma meta tag without noarchive and a robots meta tag whose
content is noarchive is not marked private, refuting the claim that a
generic robots noarchive tag triggers the marking whenever the policy is
enabled. -/
theorem C8_process_metadata_counterexample :
    (process_metadata true [("perma", "index"), ("robots", "noarchive")] "T"
      (LinkRec.mk false none none "")).is_private = false ∧
    metaGet [("perma", "index"), ("robots", "noarchive")] "robots"
      = some "noarchive" ∧
    strContains (lowerStr "noarchive") "noarchive" = true := by decide

/-- C8 witness: a non-empty description meta tag is persisted truncated
to 300 characters. -/
theorem C8_process_metadata_witness :
    (process_metadata false [("description", "D")] "T"
      (LinkRec.mk false none none "")).submitted_description
      = some (takeStr 300 "D") :=
  C8_process_metadata.2.2.2.1 false [("description", "D")] "T"
    (LinkRec.mk false none none "") "D" (by decide) (by decide)


/-! ## Upload task helper lemmas (C2, C4, C5) -/

theorem upload_proceeded_eq (st : Option IAFileStatus) (ev : UploadEvent)
    (caps : RetryCaps) (a t : Nat) :
    (upload_link_to_internet_archive st ev caps a t).proceeded
      = (upload_dispatch st).proceeds := by
  unfold upload_link_to_internet_archive
  by_cases hp : (upload_dispatch st).proceeds = false
  · rw [if_pos hp, hp]
  · have hp' : (upload_dispatch st).proceeds = true := by
      revert hp; cases (upload_dispatch st).proceeds <;> simp
    rw [if_neg hp, hp']
    cases ev <;> (repeat' split) <;> rfl

theorem upload_skip_eq (st : Option IAFileStatus) (ev : UploadEvent)
    (caps : RetryCaps) (a t : Nat)
    (hp : (upload_dispatch st).proceeds = false) :
    upload_link_to_internet_archive st ev caps a t
      = { fileStatus := st, tasksDelta := 0, requeue := none,
          proceeded := false } := by
  unfold upload_link_to_internet_archive
  rw [if_pos hp]

theorem upload_none_some_status (ev : UploadEvent) (caps : RetryCaps) (a t : Nat) :
    (upload_link_to_internet_archive none ev caps a t).fileStatus.isSome = true := by
  unfold upload_link_to_internet_archive
  rw [if_neg (by simp [upload_dispatch, UploadDispatch.proceeds])]
  cases ev <;> (repeat' split) <;> rfl

theorem upload_rateLimited_eq (st : Option IAFileStatus) (caps : RetryCaps)
    (a t : Nat) (hp : (upload_dispatch st).proceeds = true) :
    upload_link_to_internet_archive st UploadEvent.rateLimited caps a t
      = (if retryAllowed caps.rateLimit (a + 1) then
          { fileStatus := some IAFileStatus.upload_attempted, tasksDelta := 0,
            requeue := some (a + 1, t), proceeded := true }
         else
          { fileStatus := some IAFileStatus.upload_attempted, tasksDelta := 1,
            requeue := none, proceeded := true }) := by
  unfold upload_link_to_internet_archive
  rw [if_neg (by simp [hp])]

theorem upload_getItemConnError_eq (st : Option IAFileStatus) (caps : RetryCaps)
    (a t : Nat) (hp : (upload_dispatch st).proceeds = true) :
    upload_link_to_internet_archive st UploadEvent.getItemConnError caps a t
      = { fileStatus := some IAFileStatus.upload_attempted, tasksDelta := 0,
          requeue := some (a, t), proceeded := true } := by
  unfold upload_link_to_internet_archive
  rw [if_neg (by simp [hp])]

theorem upload_connection_class_eq (st : Option IAFileStatus) (caps : RetryCaps)
    (a t : Nat) (exc : UploadExc) (hp : (upload_dispatch st).proceeds = true)
    (hsoft : isSoftTimeLimit exc = false)
    (hconn : matchesConnectionErrors exc = true) :
    upload_link_to_internet_archive st (UploadEvent.uploadRaised exc) caps a t
      = { fileStatus := some IAFileStatus.upload_attempted, tasksDelta := 0,
          requeue := some (a, t), proceeded := true } := by
  unfold upload_link_to_internet_archive
  rw [if_neg (by simp [hp])]
  dsimp only
  rw [if_neg (by simp [hsoft]), if_pos hconn]

theorem upload_httpError_eq (st : Option IAFileStatus) (caps : RetryCaps)
    (a t : Nat) (msg : String) (hp : (upload_dispatch st).proceeds = true) :
    upload_link_to_internet_archive st
      (UploadEvent.uploadRaised (UploadExc.httpError msg)) caps a t
      = { fileStatus := some IAFileStatus.upload_attempted, tasksDelta := 0,
          requeue := some (a, t), proceeded := true } :=
  upload_connection_class_eq st caps a t (UploadExc.httpError msg) hp rfl rfl

theorem upload_softTimeLimit_eq (st : Option IAFileStatus) (caps : RetryCaps)
    (a t : Nat) (hp : (upload_dispatch st).proceeds = true) :
    upload_link_to_internet_archive st
      (UploadEvent.uploadRaised UploadExc.softTimeLimit) caps a t
      = (if retryAllowed caps.maxTimeouts (t + 1) then
          { fileStatus := some IAFileStatus.upload_attempted, tasksDelta := 0,
            requeue := some (a, t + 1), proceeded := true }
         else
          { fileStatus := some IAFileStatus.upload_attempted, tasksDelta := 1,
            requeue := none, proceeded := true }) := by
  unfold upload_link_to_internet_archive
  rw [if_neg (by simp [hp])]
  dsimp only
  have h1 : isSoftTimeLimit UploadExc.softTimeLimit = true := rfl
  rw [if_pos h1]

theorem upload_rate_text_eq (st : Option IAFileStatus) (caps : RetryCaps)
    (a t : Nat) (msg : String) (hp : (upload_dispatch st).proceeds = true)
    (hr : strContains msg rateLimitPhrase = true) :
    upload_link_to_internet_archive st
      (UploadEvent.uploadRaised (UploadExc.assertionError msg)) caps a t
      = (if retryAllowed caps.rateLimit (a + 1) then
          { fileStatus := some IAFileStatus.upload_attempted, tasksDelta := 0,
            requeue := some (a + 1, t), proceeded := true }
         else
          { fileStatus := some IAFileStatus.upload_attempted, tasksDelta := 1,
            requeue := none, proceeded := true }) := by
  unfold upload_link_to_internet_archive
  rw [if_neg (by simp [hp])]
  dsimp only
  have h1 : isSoftTimeLimit (UploadExc.assertionError msg) = false := rfl
  have h2 : matchesConnectionErrors (UploadExc.assertionError msg) = false := rfl
  have h3 : excMessage (UploadExc.assertionError msg) = msg := rfl
  rw [if_neg (by simp [h1]), if_neg (by simp [h2]), h3, if_pos hr]

theorem upload_race_eq (st : Option IAFileStatus) (caps : RetryCaps)
    (a t : Nat) (msg : String) (hp : (upload_dispatch st).proceeds = true)
    (hr : strContains msg rateLimitPhrase = false)
    (hrace : isConcurrentCreationRace msg = true) :
    upload_link_to_internet_archive st
      (UploadEvent.uploadRaised (UploadExc.assertionError msg)) caps a t
      = { fileStatus := some IAFileStatus.upload_attempted, tasksDelta := 0,
          requeue := some (a, t), proceeded := true } := by
  unfold upload_link_to_internet_archive
  rw [if_neg (by simp [hp])]
  dsimp only
  have h1 : isSoftTimeLimit (UploadExc.assertionError msg) = false := rfl
  have h2 : matchesConnectionErrors (UploadExc.assertionError msg) = false := rfl
  have h3 : excMessage (UploadExc.assertionError msg) = msg := rfl
  rw [if_neg (by simp [h1]), if_neg (by simp [h2]), h3, if_neg (by simp [hr]),
    if_pos hrace]

theorem upload_other_error_eq (st : Option IAFileStatus) (caps : RetryCaps)
    (a t : Nat) (msg : String) (hp : (upload_dispatch st).proceeds = true)
    (hr : strContains msg rateLimitPhrase = false)
    (hrace : isConcurrentCreationRace msg = false) :
    upload_link_to_internet_archive st
      (UploadEvent.uploadRaised (UploadExc.assertionError msg)) caps a t
      = (if retryAllowed caps.errors (a + 1) then
          { fileStatus := some IAFileStatus.upload_attempted, tasksDelta := 0,
            requeue := some (a + 1, t), proceeded := true }
         else
          { fileStatus := some IAFileStatus.upload_attempted, tasksDelta := 1,
            requeue := none, proceeded := true }) := by
  unfold upload_link_to_internet_archive
  rw [if_neg (by simp [hp])]
  dsimp only
  have h1 : isSoftTimeLimit (UploadExc.assertionError msg) = false := rfl
  have h2 : matchesConnectionErrors (UploadExc.assertionError msg) = false := rfl
  have h3 : excMessage (UploadExc.assertionError msg) = msg := rfl
  rw [if_neg (by simp [h1]), if_neg (by simp [h2]), h3, if_neg (by simp [hr]),
    if_neg (by simp [hrace])]

theorem upload_uploadOk_eq (st : Option IAFileStatus) (caps : RetryCaps)
    (a t : Nat) (hp : (upload_dispatch st).proceeds = true) :
    upload_link_to_internet_archive st UploadEvent.uploadOk caps a t
      = { fileStatus := some IAFileStatus.upload_submitted, tasksDelta := 1,
          requeue := none, proceeded := true } := by
  unfold upload_link_to_internet_archive
  rw [if_neg (by simp [hp])]

theorem upload_task_zero_caps (st : Option IAFileStatus) (ev : UploadEvent)
    (a t : Nat) (hp : (upload_dispatch st).proceeds = true)
    (hok : ev ≠ UploadEvent.uploadOk) :
    upload_link_to_internet_archive st ev (RetryCaps.mk 0 0 0) a t
      = { fileStatus := some IAFileStatus.upload_attempted, tasksDelta := 0,
          requeue := some (a + (if consumesAttempt ev then 1 else 0),
                           t + (if consumesTimeout ev then 1 else 0)),
          proceeded := true } := by
  cases ev with
  | rateLimited =>
    rw [upload_rateLimited_eq st _ a t hp, if_pos (by simp [retryAllowed])]
    simp [consumesAttempt, consumesTimeout]
  | getItemConnError =>
    rw [upload_getItemConnError_eq st _ a t hp]
    simp [consumesAttempt, consumesTimeout]
  | uploadRaised exc =>
    cases exc with
    | connErr =>
      rw [upload_connection_class_eq st _ a t UploadExc.connErr hp rfl rfl]
      simp [consumesAttempt, consumesTimeout]
    | httpError msg =>
      rw [upload_httpError_eq st _ a t msg hp]
      simp [consumesAttempt, consumesTimeout]
    | assertionError msg =>
      by_cases hr : strContains msg rateLimitPhrase = true
      · rw [upload_rate_text_eq st _ a t msg hp hr,
          if_pos (by simp [retryAllowed])]
        simp [consumesAttempt, consumesTimeout, hr]
      · have hr' : strContains msg rateLimitPhrase = false := by
          revert hr; cases strContains msg rateLimitPhrase <;> simp
        by_cases hrace : isConcurrentCreationRace msg = true
        · rw [upload_race_eq st _ a t msg hp hr' hrace]
          simp [consumesAttempt, consumesTimeout, hr', hrace]
        · have hrace' : isConcurrentCreationRace msg = false := by
            revert hrace; cases isConcurrentCreationRace msg <;> simp
          rw [upload_other_error_eq st _ a t msg hp hr' hrace',
            if_pos (by simp [retryAllowed])]
          simp [consumesAttempt, consumesTimeout, hr', hrace']
    | softTimeLimit =>
      rw [upload_softTimeLimit_eq st _ a t hp, if_pos (by simp [retryAllowed])]
      simp [consumesAttempt, consumesTimeout]
  | uploadOk => exact absurd rfl hok

theorem upload_runs_step (caps : RetryCaps) (st st2 : Option IAFileStatus)
    (a t a2 t2 : Nat) (ev e2 : UploadEvent) (r2 : List UploadEvent)
    (ho : upload_link_to_internet_archive st ev caps a t
      = { fileStatus := st2, tasksDelta := 0, requeue := some (a2, t2),
          proceeded := true }) :
    upload_runs caps st a t (ev :: e2 :: r2)
      = upload_runs caps st2 a2 t2 (e2 :: r2) := by
  simp only [upload_runs, ho]

theorem upload_runs_zero_caps :
    ∀ (evs : List UploadEvent) (st : Option IAFileStatus) (a t : Nat),
      (upload_dispatch st).proceeds = true → evs ≠ [] →
      (∀ ev ∈ evs, ev ≠ UploadEvent.uploadOk) →
      (upload_runs (RetryCaps.mk 0 0 0) st a t evs).requeue
        = some (a + (evs.filter consumesAttempt).length,
                t + (evs.filter consumesTimeout).length) := by
  intro evs
  induction evs with
  | nil => intro st a t _ hne _; exact absurd rfl hne
  | cons ev rest ih =>
    intro st a t hp _ hok
    have hev := upload_task_zero_caps st ev a t hp (hok ev (by simp))
    cases rest with
    | nil =>
      simp only [upload_runs, hev]
      by_cases hA : consumesAttempt ev = true <;>
        by_cases hT : consumesTimeout ev = true <;>
          simp [List.filter_cons, hA, hT]
    | cons ev2 rest2 =>
      rw [upload_runs_step (RetryCaps.mk 0 0 0) st
        (some IAFileStatus.upload_attempted) a t _ _ ev ev2 rest2 hev]
      rw [ih (some IAFileStatus.upload_attempted) _ _ (by rfl) (by simp)
        (fun x hx => hok x (by simp [hx]))]
      by_cases hA : consumesAttempt ev = true <;>
        by_cases hT : consumesTimeout ev = true <;>
          simp [List.filter_cons, hA, hT] <;> try omega

/-! ## C4 -/

/-- C4: on each run of the upload task the action is dispatched by the
current status of the InternetArchiveFile for the item and link: no row
creates one with status upload_attempted and proceeds; confirmed_present
returns without uploading; deletion_attempted or deletion_submitted logs
an error and returns without uploading; upload_attempted or
upload_submitted proceeds with a warning; confirmed_absent proceeds as a
re-upload. -/
theorem C4_upload_dispatch :
    upload_dispatch none = UploadDispatch.createAndProceed ∧
    upload_dispatch (some IAFileStatus.confirmed_present)
      = UploadDispatch.skipAlreadyPresent ∧
    upload_dispatch (some IAFileStatus.deletion_attempted)
      = UploadDispatch.skipDeletionInProgress ∧
    upload_dispatch (some IAFileStatus.deletion_submitted)
      = UploadDispatch.skipDeletionInProgress ∧
    upload_dispatch (some IAFileStatus.upload_attempted)
      = UploadDispatch.proceedWithWarning ∧
    upload_dispatch (some IAFileStatus.upload_submitted)
      = UploadDispatch.proceedWithWarning ∧
    upload_dispatch (some IAFileStatus.confirmed_absent)
      = UploadDispatch.proceedReupload ∧
    (∀ (st : Option IAFileStatus) (ev : UploadEvent) (caps : RetryCaps) (a t : Nat),
      (upload_link_to_internet_archive st ev caps a t).proceeded
        = (upload_dispatch st).proceeds) ∧
    (∀ (st : Option IAFileStatus) (ev : UploadEvent) (caps : RetryCaps) (a t : Nat),
      (upload_dispatch st).proceeds = false →
      upload_link_to_internet_archive st ev caps a t
        = { fileStatus := st, tasksDelta := 0, requeue := none,
            proceeded := false }) ∧
    (∀ (ev : UploadEvent) (caps : RetryCaps) (a t : Nat),
      (upload_link_to_internet_archive none ev caps a t).fileStatus.isSome = true) :=
  ⟨rfl, rfl, rfl, rfl, rfl, rfl, rfl,
   fun st ev caps a t => upload_proceeded_eq st ev caps a t,
   fun st ev caps a t hp => upload_skip_eq st ev caps a t hp,
   fun ev caps a t => upload_none_some_status ev caps a t⟩

/-- C4 witness: a file already confirmed_present makes the task return
without uploading and without touching the file or the item. -/
theorem C4_upload_dispatch_witness :
    upload_link_to_internet_archive (some IAFileStatus.confirmed_present)
      UploadEvent.uploadOk (RetryCaps.mk 1 1 1) 0 0
      = { fileStatus := some IAFileStatus.confirmed_present, tasksDelta := 0,
          requeue := none, proceeded := false } :=
  C4_upload_dispatch.2.2.2.2.2.2.2.2.1 (some IAFileStatus.confirmed_present)
    UploadEvent.uploadOk (RetryCaps.mk 1 1 1) 0 0 (by decide)

/-! ## C2 -/

/-- C2: amended.  Error outcomes of the upload task are dispatched to its
exception handlers in source order, and because
requests.exceptions.HTTPError is a member of the CONNECTION_ERRORS tuple
whose handler precedes the HTTPError/AssertionError handler, every HTTP
error raised by the upload — rate-limit 503 responses and
concurrent-creation races included — re-queues budget-free without
incrementing any counter and without limit (refuted as stated by
`C2_upload_retry_counterexample`).  A soft time limit re-queues with the
separate timeouts counter incremented up to
INTERNET_ARCHIVE_UPLOAD_MAX_TIMEOUTS; connection errors while fetching
item metadata or uploading re-queue budget-free; the rate-limit, race
and error text classification is reachable only by the AssertionError of
the upload's status assertion, where rate-limit text and other errors
increment the single shared attempts counter against the rate-limit
limit and the error limit respectively, and the four race phrases
re-queue budget-free; the pre-upload load check also increments the
shared attempts counter against the rate-limit limit; a zero (falsy)
limit allows unlimited retries; when an applicable budget is exhausted
the file is left in its current status (upload_attempted) with no
further re-queue. -/
theorem C2_upload_retry_classification :
    (∀ (st : Option IAFileStatus) (caps : RetryCaps) (a t : Nat),
      (upload_dispatch st).proceeds = true →
      upload_link_to_internet_archive st UploadEvent.getItemConnError caps a t
        = { fileStatus := some IAFileStatus.upload_attempted, tasksDelta := 0,
            requeue := some (a, t), proceeded := true } ∧
      ∀ (exc : UploadExc), isSoftTimeLimit exc = false →
        matchesConnectionErrors exc = true →
        upload_link_to_internet_archive st (UploadEvent.uploadRaised exc) caps a t
          = { fileStatus := some IAFileStatus.upload_attempted, tasksDelta := 0,
              requeue := some (a, t), proceeded := true }) ∧
    (∀ (st : Option IAFileStatus) (caps : RetryCaps) (a t : Nat) (msg : String),
      (upload_dispatch st).proceeds = true →
      upload_link_to_internet_archive st
        (UploadEvent.uploadRaised (UploadExc.httpError msg)) caps a t
        = { fileStatus := some IAFileStatus.upload_attempted, tasksDelta := 0,
            requeue := some (a, t), proceeded := true }) ∧
    (∀ (st : Option IAFileStatus) (caps : RetryCaps) (a t : Nat),
      (upload_dispatch st).proceeds = true →
      upload_link_to_internet_archive st
        (UploadEvent.uploadRaised UploadExc.softTimeLimit) caps a t
        = (if retryAllowed caps.maxTimeouts (t + 1) then
            { fileStatus := some IAFileStatus.upload_attempted, tasksDelta := 0,
              requeue := some (a, t + 1), proceeded := true }
           else
            { fileStatus := some IAFileStatus.upload_attempted, tasksDelta := 1,
              requeue := none, proceeded := true })) ∧
    (∀ (st : Option IAFileStatus) (caps : RetryCaps) (a t : Nat) (msg : String),
      (upload_dispatch st).proceeds = true →
      strContains msg rateLimitPhrase = true →
      upload_link_to_internet_archive st
        (UploadEvent.uploadRaised (UploadExc.assertionError msg)) caps a t
        = (if retryAllowed caps.rateLimit (a + 1) then
            { fileStatus := some IAFileStatus.upload_attempted, tasksDelta := 0,
              requeue := some (a + 1, t), proceeded := true }
           else
            { fileStatus := some IAFileStatus.upload_attempted, tasksDelta := 1,
              requeue := none, proceeded := true })) ∧
    (∀ (st : Option IAFileStatus) (caps : RetryCaps) (a t : Nat) (msg : String),
      (upload_dispatch st).proceeds = true →
      strContains msg rateLimitPhrase = false →
      isConcurrentCreationRace msg = true →
      upload_link_to_internet_archive st
        (UploadEvent.uploadRaised (UploadExc.assertionError msg)) caps a t
        = { fileStatus := some IAFileStatus.upload_attempted, tasksDelta := 0,
            requeue := some (a, t), proceeded := true }) ∧
    (∀ (st : Option IAFileStatus) (caps : RetryCaps) (a t : Nat) (msg : String),
      (upload_dispatch st).proceeds = true →
      strContains msg rateLimitPhrase = false →
      isConcurrentCreationRace msg = false →
      upload_link_to_internet_archive st
        (UploadEvent.uploadRaised (UploadExc.assertionError msg)) caps a t
        = (if retryAllowed caps.errors (a + 1) then
            { fileStatus := some IAFileStatus.upload_attempted, tasksDelta := 0,
              requeue := some (a + 1, t), proceeded := true }
           else
            { fileStatus := some IAFileStatus.upload_attempted, tasksDelta := 1,
              requeue := none, proceeded := true })) ∧
    (∀ (evs : List UploadEvent) (st : Option IAFileStatus) (a t : Nat),
      (upload_dispatch st).proceeds = true → evs ≠ [] →
      (∀ ev ∈ evs, ev ≠ UploadEvent.uploadOk) →
      (upload_runs (RetryCaps.mk 0 0 0) st a t evs).requeue
        = some (a + (evs.filter consumesAttempt).length,
                t + (evs.filter consumesTimeout).length)) :=
  ⟨fun st caps a t hp =>
    ⟨upload_getItemConnError_eq st caps a t hp,
     fun exc hsoft hconn =>
      upload_connection_class_eq st caps a t exc hp hsoft hconn⟩,
   fun st caps a t msg hp => upload_httpError_eq st caps a t msg hp,
   fun st caps a t hp => upload_softTimeLimit_eq st caps a t hp,
   fun st caps a t msg hp hr => upload_rate_text_eq st caps a t msg hp hr,
   fun st caps a t msg hp hr hrace => upload_race_eq st caps a t msg hp hr hrace,
   fun st caps a t msg hp hr hrace => upload_other_error_eq st caps a t msg hp hr hrace,
   fun evs st a t hp hne hok => upload_runs_zero_caps evs st a t hp hne hok⟩

/-- C2 counterexample: a requests HTTPError whose body carries the
rate-limit phrase is caught by the CONNECTION_ERRORS handler (HTTPError
is a member of that tuple and its handler comes first), so with a
rate-limit limit of 1 and the attempts counter already past it, the run
still re-queues with both counters unchanged — the claim's rate-limit
budget predicts an incremented counter and, here, exhaustion with no
re-queue. -/
theorem C2_upload_retry_counterexample :
    (upload_link_to_internet_archive (some IAFileStatus.upload_attempted)
      (UploadEvent.uploadRaised
        (UploadExc.httpError "e Please reduce your request rate"))
      (RetryCaps.mk 1 1 1) 5 0).requeue = some (5, 0) ∧
    strContains "e Please reduce your request rate" rateLimitPhrase = true ∧
    retryAllowed 1 (5 + 1) = false := by decide

/-- C2 witness: with unlimited budgets, a metadata connection error, a
soft time limit, an HTTP race error (budget-free via the connection
handler) and a pre-upload rate-limit skip leave the counters at the
number of attempt-consuming and timeout-consuming events. -/
theorem C2_upload_retry_witness :
    (upload_runs (RetryCaps.mk 0 0 0) none 2 3
      [UploadEvent.getItemConnError,
       UploadEvent.uploadRaised UploadExc.softTimeLimit,
       UploadEvent.uploadRaised
         (UploadExc.httpError "The bucket namespace is shared"),
       UploadEvent.rateLimited]).requeue = some (2 + 1, 3 + 1) :=
  C2_upload_retry_classification.2.2.2.2.2.2
    [UploadEvent.getItemConnError,
     UploadEvent.uploadRaised UploadExc.softTimeLimit,
     UploadEvent.uploadRaised
       (UploadExc.httpError "The bucket namespace is shared"),
     UploadEvent.rateLimited] none 2 3 (by decide) (by decide) (by decide)

/-! ## Deletion task helper lemmas (C5, C9) -/

theorem delete_proceeded_eq (st : IAFileStatus) (ev : DeleteEvent)
    (caps : RetryCaps) (a : Nat) :
    (delete_link_from_daily_item st ev caps a).proceeded
      = (delete_dispatch st).proceeds := by
  unfold delete_link_from_daily_item
  by_cases hp : (delete_dispatch st).proceeds = false
  · rw [if_pos hp, hp]
  · have hp' : (delete_dispatch st).proceeds = true := by
      revert hp; cases (delete_dispatch st).proceeds <;> simp
    rw [if_neg hp, hp']
    cases ev <;> (repeat' split) <;> rfl

theorem delete_skip_eq (st : IAFileStatus) (ev : DeleteEvent)
    (caps : RetryCaps) (a : Nat)
    (hp : (delete_dispatch st).proceeds = false) :
    delete_link_from_daily_item st ev caps a
      = { fileStatus := st, tasksDelta := 0, requeue := none,
          proceeded := false } := by
  unfold delete_link_from_daily_item
  rw [if_pos hp]

theorem delete_rateLimited_eq (st : IAFileStatus) (caps : RetryCaps) (a : Nat)
    (hp : (delete_dispatch st).proceeds = true) :
    delete_link_from_daily_item st DeleteEvent.rateLimited caps a
      = (if retryAllowed caps.rateLimit (a + 1) then
          { fileStatus := IAFileStatus.deletion_attempted, tasksDelta := 0,
            requeue := some (a + 1), proceeded := true }
         else
          { fileStatus := IAFileStatus.deletion_attempted, tasksDelta := 1,
            requeue := none, proceeded := true }) := by
  unfold delete_link_from_daily_item
  rw [if_neg (by simp [hp])]

theorem delete_getItemConnError_eq (st : IAFileStatus) (caps : RetryCaps)
    (a : Nat) (hp : (delete_dispatch st).proceeds = true) :
    delete_link_from_daily_item st DeleteEvent.getItemConnError caps a
      = { fileStatus := IAFileStatus.deletion_attempted, tasksDelta := 0,
          requeue := some a, proceeded := true } := by
  unfold delete_link_from_daily_item
  rw [if_neg (by simp [hp])]

theorem delete_deleteOk_eq (st : IAFileStatus) (caps : RetryCaps) (a : Nat)
    (hp : (delete_dispatch st).proceeds = true) :
    delete_link_from_daily_item st DeleteEvent.deleteOk caps a
      = { fileStatus := IAFileStatus.deletion_submitted, tasksDelta := 1,
          requeue := none, proceeded := true } := by
  unfold delete_link_from_daily_item
  rw [if_neg (by simp [hp])]

theorem delete_rate_text_eq (st : IAFileStatus) (caps : RetryCaps) (a : Nat)
    (msg : String) (hp : (delete_dispatch st).proceeds = true)
    (hr : strContains msg rateLimitPhrase = true) :
    delete_link_from_daily_item st (DeleteEvent.deleteError msg) caps a
      = (if retryAllowed caps.rateLimit (a + 1) then
          { fileStatus := IAFileStatus.deletion_attempted, tasksDelta := 0,
            requeue := some (a + 1), proceeded := true }
         else
          { fileStatus := IAFileStatus.deletion_attempted, tasksDelta := 1,
            requeue := none, proceeded := true }) := by
  unfold delete_link_from_daily_item
  rw [if_neg (by simp [hp])]
  dsimp only
  rw [if_pos hr]

theorem delete_other_error_eq (st : IAFileStatus) (caps : RetryCaps) (a : Nat)
    (msg : String) (hp : (delete_dispatch st).proceeds = true)
    (hr : strContains msg rateLimitPhrase = false) :
    delete_link_from_daily_item st (DeleteEvent.deleteError msg) caps a
      = (if retryAllowed caps.errors (a + 1) then
          { fileStatus := IAFileStatus.deletion_attempted, tasksDelta := 0,
            requeue := some (a + 1), proceeded := true }
         else
          { fileStatus := IAFileStatus.deletion_attempted, tasksDelta := 1,
            requeue := none, proceeded := true }) := by
  unfold delete_link_from_daily_item
  rw [if_neg (by simp [hp])]
  dsimp only
  rw [if_neg (by simp [hr])]

/-! ## C9 -/

/-- C9: amended.  The deletion task mirrors the upload task in its status
dispatch (confirmed_absent skips, upload_attempted and upload_submitted
log an error and skip, deletion_attempted and deletion_submitted proceed
with a warning, confirmed_present proceeds) and in advancing the file
through deletion_attempted and then deletion_submitted on a successful
external delete; but the error classifications are not the same on
either side: the deletion task catches RetryError, HTTPError, OSError,
AssertionError and the connection errors around the delete call in one
combined handler whose text test routes rate-limit phrases to the
rate-limit limit and everything else — concurrent-creation races and
connection errors included — to the error limit, always incrementing the
attempts counter, whereas the upload task re-queues every HTTP error
budget-free through its CONNECTION_ERRORS handler before its text
classification (refuted as stated by
`C9_deletion_mirror_counterexample`); the deletion task also has no
soft-time-limit handler and no timeouts counter (its event surface has
no timeout case); only connection errors while fetching item metadata
re-queue budget-free on both sides. -/
theorem C9_deletion_mirror :
    delete_dispatch IAFileStatus.confirmed_absent
      = DeleteDispatch.skipAlreadyAbsent ∧
    delete_dispatch IAFileStatus.upload_attempted
      = DeleteDispatch.skipUploadInProgress ∧
    delete_dispatch IAFileStatus.upload_submitted
      = DeleteDispatch.skipUploadInProgress ∧
    delete_dispatch IAFileStatus.deletion_attempted
      = DeleteDispatch.proceedWithWarning ∧
    delete_dispatch IAFileStatus.deletion_submitted
      = DeleteDispatch.proceedWithWarning ∧
    delete_dispatch IAFileStatus.confirmed_present
      = DeleteDispatch.proceedDelete ∧
    (∀ (st : IAFileStatus) (ev : DeleteEvent) (caps : RetryCaps) (a : Nat),
      (delete_link_from_daily_item st ev caps a).proceeded
        = (delete_dispatch st).proceeds) ∧
    (∀ (st : IAFileStatus) (ev : DeleteEvent) (caps : RetryCaps) (a : Nat),
      (delete_dispatch st).proceeds = false →
      delete_link_from_daily_item st ev caps a
        = { fileStatus := st, tasksDelta := 0, requeue := none,
            proceeded := false }) ∧
    (∀ (st : IAFileStatus) (caps : RetryCaps) (a : Nat),
      (delete_dispatch st).proceeds = true →
      delete_link_from_daily_item st DeleteEvent.deleteOk caps a
        = { fileStatus := IAFileStatus.deletion_submitted, tasksDelta := 1,
            requeue := none, proceeded := true }) ∧
    (∀ (st : IAFileStatus) (caps : RetryCaps) (a : Nat),
      (delete_dispatch st).proceeds = true →
      delete_link_from_daily_item st DeleteEvent.rateLimited caps a
        = (if retryAllowed caps.rateLimit (a + 1) then
            { fileStatus := IAFileStatus.deletion_attempted, tasksDelta := 0,
              requeue := some (a + 1), proceeded := true }
           else
            { fileStatus := IAFileStatus.deletion_attempted, tasksDelta := 1,
              requeue := none, proceeded := true })) ∧
    (∀ (st : IAFileStatus) (caps : RetryCaps) (a : Nat) (msg : String),
      (delete_dispatch st).proceeds = true →
      strContains msg rateLimitPhrase = true →
      delete_link_from_daily_item st (DeleteEvent.deleteError msg) caps a
        = (if retryAllowed caps.rateLimit (a + 1) then
            { fileStatus := IAFileStatus.deletion_attempted, tasksDelta := 0,
              requeue := some (a + 1), proceeded := true }
           else
            { fileStatus := IAFileStatus.deletion_attempted, tasksDelta := 1,
              requeue := none, proceeded := true })) ∧
    (∀ (st : IAFileStatus) (caps : RetryCaps) (a : Nat) (msg : String),
      (delete_dispatch st).proceeds = true →
      strContains msg rateLimitPhrase = false →
      delete_link_from_daily_item st (DeleteEvent.deleteError msg) caps a
        = (if retryAllowed caps.errors (a + 1) then
            { fileStatus := IAFileStatus.deletion_attempted, tasksDelta := 0,
              requeue := some (a + 1), proceeded := true }
           else
            { fileStatus := IAFileStatus.deletion_attempted, tasksDelta := 1,
              requeue := none, proceeded := true })) ∧
    (∀ (st : IAFileStatus) (caps : RetryCaps) (a : Nat),
      (delete_dispatch st).proceeds = true →
      delete_link_from_daily_item st DeleteEvent.getItemConnError caps a
        = { fileStatus := IAFileStatus.deletion_attempted, tasksDelta := 0,
            requeue := some a, proceeded := true }) ∧
    (∀ (stU : Option IAFileStatus) (caps : RetryCaps) (a t : Nat) (msg : String),
      (upload_dispatch stU).proceeds = true →
      (upload_link_to_internet_archive stU
        (UploadEvent.uploadRaised (UploadExc.httpError msg)) caps a t).requeue
        = some (a, t)) ∧
    (∀ (ev : DeleteEvent),
      ev = DeleteEvent.rateLimited ∨ ev = DeleteEvent.getItemConnError ∨
      (∃ msg, ev = DeleteEvent.deleteError msg) ∨ ev = DeleteEvent.deleteOk) :=
  ⟨rfl, rfl, rfl, rfl, rfl, rfl,
   fun st ev caps a => delete_proceeded_eq st ev caps a,
   fun st ev caps a hp => delete_skip_eq st ev caps a hp,
   fun st caps a hp => delete_deleteOk_eq st caps a hp,
   fun st caps a hp => delete_rateLimited_eq st caps a hp,
   fun st caps a msg hp hr => delete_rate_text_eq st caps a msg hp hr,
   fun st caps a msg hp hr => delete_other_error_eq st caps a msg hp hr,
   fun st caps a hp => delete_getItemConnError_eq st caps a hp,
   fun stU caps a t msg hp => by
     rw [upload_httpError_eq stU caps a t msg hp],
   fun ev => by
     cases ev with
     | rateLimited => exact Or.inl rfl
     | getItemConnError => exact Or.inr (Or.inl rfl)
     | deleteError msg => exact Or.inr (Or.inr (Or.inl ⟨msg, rfl⟩))
     | deleteOk => exact Or.inr (Or.inr (Or.inr rfl))⟩

/-- C9 counterexample: on an HTTP error carrying a concurrent-creation
race phrase, and equally on one carrying the rate-limit phrase, the
upload task re-queues budget-free through its CONNECTION_ERRORS handler
with counters unchanged, while the deletion task re-queues both under a
budget with the attempts counter incremented — the two tasks do not
classify these errors into the same budgets. -/
theorem C9_deletion_mirror_counterexample :
    (upload_link_to_internet_archive (some IAFileStatus.confirmed_absent)
      (UploadEvent.uploadRaised
        (UploadExc.httpError "The bucket namespace is shared"))
      (RetryCaps.mk 5 5 5) 0 0).requeue = some (0, 0) ∧
    (delete_link_from_daily_item IAFileStatus.confirmed_present
      (DeleteEvent.deleteError "The bucket namespace is shared")
      (RetryCaps.mk 5 5 5) 0).requeue = some 1 ∧
    isConcurrentCreationRace "The bucket namespace is shared" = true ∧
    (upload_link_to_internet_archive (some IAFileStatus.confirmed_absent)
      (UploadEvent.uploadRaised
        (UploadExc.httpError "e Please reduce your request rate"))
      (RetryCaps.mk 5 5 5) 0 0).requeue = some (0, 0) ∧
    (delete_link_from_daily_item IAFileStatus.confirmed_present
      (DeleteEvent.deleteError "e Please reduce your request rate")
      (RetryCaps.mk 5 5 5) 0).requeue = some 1 ∧
    strContains "e Please reduce your request rate" rateLimitPhrase = true := by
  decide

/-- C9 witness: a successful external delete advances the file from
confirmed_present through deletion_attempted to deletion_submitted. -/
theorem C9_deletion_mirror_witness :
    delete_link_from_daily_item IAFileStatus.confirmed_present
      DeleteEvent.deleteOk (RetryCaps.mk 1 1 1) 0
      = { fileStatus := IAFileStatus.deletion_submitted, tasksDelta := 1,
          requeue := none, proceeded := true } :=
  C9_deletion_mirror.2.2.2.2.2.2.2.2.1 IAFileStatus.confirmed_present
    (RetryCaps.mk 1 1 1) 0 (by decide)


/-! ## Counter bookkeeping helper lemmas (C5) -/

theorem upload_requeue_delta_zero (st : Option IAFileStatus) (ev : UploadEvent)
    (caps : RetryCaps) (a t : Nat) :
    (upload_link_to_internet_archive st ev caps a t).requeue.isSome = true →
    (upload_link_to_internet_archive st ev caps a t).tasksDelta = 0 := by
  unfold upload_link_to_internet_archive
  by_cases hp : (upload_dispatch st).proceeds = false
  · rw [if_pos hp]
    intro h
    simp at h
  · rw [if_neg hp]
    cases ev <;> (repeat' split) <;> simp

theorem delete_requeue_delta_zero (st : IAFileStatus) (ev : DeleteEvent)
    (caps : RetryCaps) (a : Nat) :
    (delete_link_from_daily_item st ev caps a).requeue.isSome = true →
    (delete_link_from_daily_item st ev caps a).tasksDelta = 0 := by
  unfold delete_link_from_daily_item
  by_cases hp : (delete_dispatch st).proceeds = false
  · rw [if_pos hp]
    intro h
    simp at h
  · rw [if_neg hp]
    cases ev <;> (repeat' split) <;> simp

theorem upload_delta_cases (st : Option IAFileStatus) (ev : UploadEvent)
    (caps : RetryCaps) (a t : Nat) :
    (upload_link_to_internet_archive st ev caps a t).tasksDelta = 0 ∨
    (upload_link_to_internet_archive st ev caps a t).tasksDelta = 1 := by
  unfold upload_link_to_internet_archive
  by_cases hp : (upload_dispatch st).proceeds = false
  · rw [if_pos hp]
    exact Or.inl rfl
  · rw [if_neg hp]
    cases ev <;> (repeat' split) <;> simp

theorem delete_delta_cases (st : IAFileStatus) (ev : DeleteEvent)
    (caps : RetryCaps) (a : Nat) :
    (delete_link_from_daily_item st ev caps a).tasksDelta = 0 ∨
    (delete_link_from_daily_item st ev caps a).tasksDelta = 1 := by
  unfold delete_link_from_daily_item
  by_cases hp : (delete_dispatch st).proceeds = false
  · rw [if_pos hp]
    exact Or.inl rfl
  · rw [if_neg hp]
    cases ev <;> (repeat' split) <;> simp

/-! ## Confirmation task helper lemmas (C3, C5) -/

theorem confirm_upload_success_eq (f : IAFileRec) (it : IAItemRec)
    (ef : ExtFile) (ei : ExtItem) (expected : List (String × String))
    (a ce cap : Nat) (hst : f.status ≠ IAFileStatus.confirmed_present)
    (hp : ef.present = true) (hm : metadataMatches expected ef.metadata = true) :
    confirm_file_uploaded_to_internet_archive f it
      (ConfirmFetch.fetched ef ei) expected a ce cap
      = { file := { status := IAFileStatus.confirmed_present,
                    cachedSize := some ef.size, cachedMeta := ef.metadata },
          item := { confirmedExists := true,
                    itemMetaCached :=
                      if !it.confirmedExists then true else it.itemMetaCached,
                    deriveRequired := true,
                    cachedFileCount := some ei.filesCount,
                    tasksInProgress := max (it.tasksInProgress - 1) 0 },
          requeue := none } := by
  unfold confirm_file_uploaded_to_internet_archive
  rw [if_neg hst]
  dsimp only
  rw [if_pos (by simp [hp, hm])]

theorem confirm_upload_fail_eq (f : IAFileRec) (it : IAItemRec)
    (ef : ExtFile) (ei : ExtItem) (expected : List (String × String))
    (a ce cap : Nat) (hst : f.status ≠ IAFileStatus.confirmed_present)
    (hfail : ¬(ef.present = true ∧ metadataMatches expected ef.metadata = true)) :
    confirm_file_uploaded_to_internet_archive f it
      (ConfirmFetch.fetched ef ei) expected a ce cap
      = { file := f, item := it, requeue := none } := by
  unfold confirm_file_uploaded_to_internet_archive
  rw [if_neg hst]
  dsimp only
  rw [if_neg (by simpa [Bool.and_eq_true] using hfail)]

theorem confirm_upload_connError_eq (f : IAFileRec) (it : IAItemRec)
    (expected : List (String × String)) (a ce cap : Nat)
    (hst : f.status ≠ IAFileStatus.confirmed_present) :
    confirm_file_uploaded_to_internet_archive f it
      ConfirmFetch.connError expected a ce cap
      = { file := f, item := it,
          requeue := if ce < cap then some (a, ce + 1) else none } := by
  unfold confirm_file_uploaded_to_internet_archive
  rw [if_neg hst]

theorem confirm_upload_nonneg (f : IAFileRec) (it : IAItemRec)
    (fetch : ConfirmFetch) (expected : List (String × String)) (a ce cap : Nat)
    (h : 0 ≤ it.tasksInProgress) :
    0 ≤ (confirm_file_uploaded_to_internet_archive f it fetch expected
      a ce cap).item.tasksInProgress := by
  unfold confirm_file_uploaded_to_internet_archive
  repeat' split
  all_goals first | exact h | exact le_max_right _ _

theorem confirm_deleted_nonneg (f : IAFileRec) (it : IAItemRec)
    (fetch : ConfirmFetch) (a ce connCap errorCap : Nat)
    (h : 0 ≤ it.tasksInProgress) :
    0 ≤ (confirm_file_deleted_from_daily_item f it fetch
      a ce connCap errorCap).item.tasksInProgress := by
  unfold confirm_file_deleted_from_daily_item
  repeat' split
  all_goals first | exact h | exact le_max_right _ _

/-! ## C3 -/

/-- C3: when the upload confirmation task finds the external file exists
and every key of the expected file-metadata dictionary matches the
external metadata after whitespace normalization, it sets the file
status to confirmed_present, caches its size and descriptive metadata,
decrements the item tasks_in_progress floored at 0, sets the item
derive_required to true, and, exactly when the item was not yet
confirmed_exists, caches the item metadata — setting confirmed_exists to
true in either case; when the existence or any metadata check fails, the
file and the item are left unchanged and the task does not re-queue
itself. -/
theorem C3_confirm_upload :
    (∀ (f : IAFileRec) (it : IAItemRec) (ef : ExtFile) (ei : ExtItem)
        (expected : List (String × String)) (a ce cap : Nat),
      f.status ≠ IAFileStatus.confirmed_present →
      ef.present = true → metadataMatches expected ef.metadata = true →
      confirm_file_uploaded_to_internet_archive f it
        (ConfirmFetch.fetched ef ei) expected a ce cap
        = { file := { status := IAFileStatus.confirmed_present,
                      cachedSize := some ef.size, cachedMeta := ef.metadata },
            item := { confirmedExists := true,
                      itemMetaCached :=
                        if !it.confirmedExists then true else it.itemMetaCached,
                      deriveRequired := true,
                      cachedFileCount := some ei.filesCount,
                      tasksInProgress := max (it.tasksInProgress - 1) 0 },
            requeue := none }) ∧
    (∀ (f : IAFileRec) (it : IAItemRec) (ef : ExtFile) (ei : ExtItem)
        (expected : List (String × String)) (a ce cap : Nat),
      f.status ≠ IAFileStatus.confirmed_present →
      ef.present = true → metadataMatches expected ef.metadata = true →
      0 ≤ (confirm_file_uploaded_to_internet_archive f it
        (ConfirmFetch.fetched ef ei) expected a ce cap).item.tasksInProgress) ∧
    (∀ (f : IAFileRec) (it : IAItemRec) (ef : ExtFile) (ei : ExtItem)
        (expected : List (String × String)) (a ce cap : Nat),
      f.status ≠ IAFileStatus.confirmed_present →
      ¬(ef.present = true ∧ metadataMatches expected ef.metadata = true) →
      confirm_file_uploaded_to_internet_archive f it
        (ConfirmFetch.fetched ef ei) expected a ce cap
        = { file := f, item := it, requeue := none }) :=
  ⟨fun f it ef ei expected a ce cap hst hp hm =>
    confirm_upload_success_eq f it ef ei expected a ce cap hst hp hm,
   fun f it ef ei expected a ce cap hst hp hm => by
    rw [confirm_upload_success_eq f it ef ei expected a ce cap hst hp hm]
    exact le_max_right _ _,
   fun f it ef ei expected a ce cap hst hfail =>
    confirm_upload_fail_eq f it ef ei expected a ce cap hst hfail⟩

/-- C3 witness: a matching external file (whitespace-insensitively equal
title metadata) confirms the upload, caches size and metadata, floors
the decremented counter, and caches the item metadata of a
not-yet-confirmed item. -/
theorem C3_confirm_upload_witness :
    confirm_file_uploaded_to_internet_archive
      (IAFileRec.mk IAFileStatus.upload_submitted none [])
      (IAItemRec.mk false false false none 2)
      (ConfirmFetch.fetched (ExtFile.mk true [("title", "a b")] 7) (ExtItem.mk 3))
      [("title", " ab")] 0 0 5
      = { file := { status := IAFileStatus.confirmed_present,
                    cachedSize := some 7, cachedMeta := [("title", "a b")] },
          item := { confirmedExists := true, itemMetaCached := true,
                    deriveRequired := true, cachedFileCount := some 3,
                    tasksInProgress := max ((2 : Int) - 1) 0 },
          requeue := none } :=
  C3_confirm_upload.1 (IAFileRec.mk IAFileStatus.upload_submitted none [])
    (IAItemRec.mk false false false none 2)
    (ExtFile.mk true [("title", "a b")] 7) (ExtItem.mk 3)
    [("title", " ab")] 0 0 5 (by decide) (by decide) (by decide)

/-! ## C5 -/

/-- C5: amended.  The tasks_in_progress bookkeeping pairs the increment
taken at the start of every proceeding upload or deletion attempt with
the decrement done by the re-queuing helper on every queue-level retry
(a re-queued run has net delta 0), and a run that submits an upload
keeps exactly one outstanding increment which the confirmation task
removes, flooring at 0; a run whose retry budget is exhausted keeps its
increment with no re-queue and no confirmation eligibility, so that
increment is never paired with a decrement (refuted as stated by
`C5_tasks_in_progress_counterexample`); all run deltas are 0 or 1 and
the confirmation tasks floor at zero, so a counter that starts
non-negative stays non-negative. -/
theorem C5_tasks_in_progress :
    (∀ (st : Option IAFileStatus) (ev : UploadEvent) (caps : RetryCaps) (a t : Nat),
      (upload_link_to_internet_archive st ev caps a t).requeue.isSome = true →
      (upload_link_to_internet_archive st ev caps a t).tasksDelta = 0) ∧
    (∀ (st : IAFileStatus) (ev : DeleteEvent) (caps : RetryCaps) (a : Nat),
      (delete_link_from_daily_item st ev caps a).requeue.isSome = true →
      (delete_link_from_daily_item st ev caps a).tasksDelta = 0) ∧
    (∀ (st : Option IAFileStatus) (ev : UploadEvent) (caps : RetryCaps) (a t : Nat),
      (upload_link_to_internet_archive st ev caps a t).tasksDelta = 0 ∨
      (upload_link_to_internet_archive st ev caps a t).tasksDelta = 1) ∧
    (∀ (st : IAFileStatus) (ev : DeleteEvent) (caps : RetryCaps) (a : Nat),
      (delete_link_from_daily_item st ev caps a).tasksDelta = 0 ∨
      (delete_link_from_daily_item st ev caps a).tasksDelta = 1) ∧
    (∀ (c : Int) (st : Option IAFileStatus) (ev : UploadEvent) (caps : RetryCaps)
        (a t : Nat), 0 ≤ c →
      0 ≤ c + (upload_link_to_internet_archive st ev caps a t).tasksDelta) ∧
    (∀ (c : Int) (st : IAFileStatus) (ev : DeleteEvent) (caps : RetryCaps)
        (a : Nat), 0 ≤ c →
      0 ≤ c + (delete_link_from_daily_item st ev caps a).tasksDelta) ∧
    (∀ (f : IAFileRec) (it : IAItemRec) (fetch : ConfirmFetch)
        (expected : List (String × String)) (a ce cap : Nat),
      0 ≤ it.tasksInProgress →
      0 ≤ (confirm_file_uploaded_to_internet_archive f it fetch expected
        a ce cap).item.tasksInProgress) ∧
    (∀ (f : IAFileRec) (it : IAItemRec) (fetch : ConfirmFetch)
        (a ce connCap errorCap : Nat),
      0 ≤ it.tasksInProgress →
      0 ≤ (confirm_file_deleted_from_daily_item f it fetch
        a ce connCap errorCap).item.tasksInProgress) ∧
    (∀ (st : Option IAFileStatus) (caps : RetryCaps) (a t : Nat),
      (upload_dispatch st).proceeds = true →
      upload_link_to_internet_archive st UploadEvent.uploadOk caps a t
        = { fileStatus := some IAFileStatus.upload_submitted, tasksDelta := 1,
            requeue := none, proceeded := true }) ∧
    (∀ (f : IAFileRec) (it : IAItemRec) (ef : ExtFile) (ei : ExtItem)
        (expected : List (String × String)) (a ce cap : Nat),
      f.status ≠ IAFileStatus.confirmed_present →
      ef.present = true → metadataMatches expected ef.metadata = true →
      (confirm_file_uploaded_to_internet_archive f it
        (ConfirmFetch.fetched ef ei) expected a ce cap).item.tasksInProgress
        = max (it.tasksInProgress - 1) 0) :=
  ⟨fun st ev caps a t h => upload_requeue_delta_zero st ev caps a t h,
   fun st ev caps a h => delete_requeue_delta_zero st ev caps a h,
   fun st ev caps a t => upload_delta_cases st ev caps a t,
   fun st ev caps a => delete_delta_cases st ev caps a,
   fun c st ev caps a t hc => by
     rcases upload_delta_cases st ev caps a t with h | h <;> rw [h] <;> omega,
   fun c st ev caps a hc => by
     rcases delete_delta_cases st ev caps a with h | h <;> rw [h] <;> omega,
   fun f it fetch expected a ce cap h =>
     confirm_upload_nonneg f it fetch expected a ce cap h,
   fun f it fetch a ce connCap errorCap h =>
     confirm_deleted_nonneg f it fetch a ce connCap errorCap h,
   fun st caps a t hp => upload_uploadOk_eq st caps a t hp,
   fun f it ef ei expected a ce cap hst hp hm => by
     rw [confirm_upload_success_eq f it ef ei expected a ce cap hst hp hm]⟩

/-- C5 counterexample: an upload run that exhausts the rate-limit budget
at the pre-upload load check keeps its increment (net delta 1) without
re-queuing and leaves the file in upload_attempted, a status the
confirmation poll never selects, so that increment is paired with no
decrement, refuting the claim that every increment is paired with
exactly one decrement. -/
theorem C5_tasks_in_progress_counterexample :
    upload_link_to_internet_archive (some IAFileStatus.upload_attempted)
      UploadEvent.rateLimited (RetryCaps.mk 1 0 0) 5 0
      = { fileStatus := some IAFileStatus.upload_attempted, tasksDelta := 1,
          requeue := none, proceeded := true } ∧
    some IAFileStatus.upload_attempted ≠ some IAFileStatus.upload_submitted := by
  decide

/-- C5 witness: a re-queued upload run has net delta 0 on the counter. -/
theorem C5_tasks_in_progress_witness :
    (upload_link_to_internet_archive none UploadEvent.getItemConnError
      (RetryCaps.mk 1 1 1) 0 0).tasksDelta = 0 :=
  C5_tasks_in_progress.1 none UploadEvent.getItemConnError
    (RetryCaps.mk 1 1 1) 0 0 (by decide)

/-! ## C10 -/

/-- C10: for every fetch worker thread, if the shared limit_reached flag
is already set when run begins, the worker records its URL in
requested_urls but sends no HTTP request, leaving both response and
response_exception unset; and on every exit path of run the final
pending_data is 0, so a finished worker never contributes to the size
monitor pending-byte sum. -/
theorem C10_fetch_thread :
    (∀ (limitPreset sendErr : Bool) (chunks : List FetchChunk) (iterErr : Bool),
      (proxied_request_thread_run limitPreset sendErr chunks iterErr).pendingData
        = 0) ∧
    (∀ (limitPreset sendErr : Bool) (chunks : List FetchChunk) (iterErr : Bool),
      (proxied_request_thread_run limitPreset sendErr chunks iterErr).urlRequested
        = true) ∧
    (∀ (sendErr : Bool) (chunks : List FetchChunk) (iterErr : Bool),
      proxied_request_thread_run true sendErr chunks iterErr
        = { urlRequested := true, requestSent := false, response := none,
            responseException := false, pendingData := 0 }) := by
  refine ⟨fun lp se ch ie => ?_, fun lp se ch ie => ?_, fun se ch ie => rfl⟩
  · simp only [proxied_request_thread_run]
    repeat' split
    all_goals rfl
  · simp only [proxied_request_thread_run]
    repeat' split
    all_goals rfl

end Perma
